import Mathlib

/-!
Verification model of the Python typing-practice grading backend
(`src/main.py`): a Process Isolation Runner, a Harness Synthesizer for
expression checks, and an Evaluation Dispatcher (`evaluate`).

The development shallowly embeds the program: the JSON serialization
contract between the synthesized harness and the dispatcher is modelled
by an executable dumps/loads pair (`jsonDumps` / `jsonLoads`) mirroring
the subset of Python's `json` module the program exercises (objects,
arrays, strings with the common escapes, integers, booleans, null;
`loads` requires the whole input to be one JSON document modulo
whitespace, exactly as `json.loads` does).  Untrusted candidate-code
execution is abstracted by `CandidateExec` (load outcome, an expression
evaluation oracle, and the stray stdout the candidate writes), and the
OS process by `ProcOutcome`.
-/

namespace PracticeApi

/-- JSON values, as produced by the harness's `json.dumps` payload and
consumed by the dispatcher's `json.loads`. Numbers are integers: the
payload format only carries ints from the exercise catalog. -/
inductive JVal where
  | jnull : JVal
  | jbool (b : Bool) : JVal
  | jint (n : Int) : JVal
  | jstr (s : String) : JVal
  | jarr (items : List JVal) : JVal
  | jobj (fields : List (String × JVal)) : JVal
deriving Repr

/-! ### Serialization: model of `json.dumps` with Python's default separators -/

/-- Digit character for a value below ten. -/
def digitCharOf : Nat → Char
  | 0 => '0' | 1 => '1' | 2 => '2' | 3 => '3' | 4 => '4'
  | 5 => '5' | 6 => '6' | 7 => '7' | 8 => '8' | _ => '9'

/-- Numeric value of a digit character. -/
def digitVal (c : Char) : Nat := c.toNat - 48

/-- Decimal digits, with explicit fuel (any fuel above the number is
enough, since dividing by ten shrinks it). -/
def natDigitsF : Nat → Nat → List Char
  | 0, _ => []
  | fuel + 1, n =>
    if n < 10 then [digitCharOf n]
    else natDigitsF fuel (n / 10) ++ [digitCharOf (n % 10)]

/-- Decimal digits of a natural number, most significant first. -/
def natDigits (n : Nat) : List Char := natDigitsF (n + 1) n

/-- Decimal rendering of an integer, as `json.dumps` / `str` print it. -/
def intDigits : Int → List Char
  | .ofNat n => natDigits n
  | .negSucc n => '-' :: natDigits (n + 1)

/-- String-body escaping done by `json.dumps` (the escapes the payload
can need; other characters are passed through verbatim). -/
def escStrChar (c : Char) : List Char :=
  if c == '"' || c == '\\' then ['\\', c]
  else if c == '\n' then ['\\', 'n']
  else if c == '\t' then ['\\', 't']
  else if c == '\r' then ['\\', 'r']
  else [c]

/-- Escape a whole string body. -/
def escString : List Char → List Char
  | [] => []
  | c :: cs => escStrChar c ++ escString cs

mutual

/-- Characters of `json.dumps(v)` (default separators `", "` and `": "`). -/
def dumpVal : JVal → List Char
  | .jnull => ['n', 'u', 'l', 'l']
  | .jbool true => ['t', 'r', 'u', 'e']
  | .jbool false => ['f', 'a', 'l', 's', 'e']
  | .jint n => intDigits n
  | .jstr s => '"' :: (escString s.data ++ ['"'])
  | .jarr [] => ['[', ']']
  | .jarr (x :: xs) => '[' :: ((dumpVal x ++ dumpArrTail xs) ++ [']'])
  | .jobj [] => ['\x7b', '\x7d']
  | .jobj (p :: ps) => '\x7b' :: ((dumpPair p ++ dumpObjTail ps) ++ ['\x7d'])

/-- Remaining array items, each preceded by `", "`. -/
def dumpArrTail : List JVal → List Char
  | [] => []
  | x :: xs => ',' :: ' ' :: (dumpVal x ++ dumpArrTail xs)

/-- One `"key": value` pair. -/
def dumpPair : String × JVal → List Char
  | (k, v) => '"' :: (escString k.data ++ ('"' :: ':' :: ' ' :: dumpVal v))

/-- Remaining object pairs, each preceded by `", "`. -/
def dumpObjTail : List (String × JVal) → List Char
  | [] => []
  | p :: ps => ',' :: ' ' :: (dumpPair p ++ dumpObjTail ps)

end

/-- `json.dumps` on the model values. -/
def jsonDumps (v : JVal) : String := String.mk (dumpVal v)

/-! ### Parsing: model of `json.loads` -/

/-- JSON whitespace. -/
def isWsChar (c : Char) : Bool :=
  c == '\t' || (c == '\n' || (c == '\r' || c == ' '))

/-- Drop leading whitespace. -/
def skipWs : List Char → List Char
  | [] => []
  | c :: cs => if isWsChar c then skipWs cs else c :: cs

/-- The escape letters a string body may use, with what each stands for. -/
def escTable : List (Char × Char) :=
  [('"', '"'), ('\\', '\\'), ('/', '/'), ('n', '\n'), ('t', '\t'), ('r', '\r')]

/-- Decode one escape character in a string body. -/
def unescChar (c : Char) : Option Char :=
  (escTable.find? (fun p => p.1 == c)).map (fun p => p.2)

/-- Parse a string body up to and including the closing quote, returning
the decoded characters and the remaining input. -/
def parseStrBody : List Char → Option (List Char × List Char)
  | [] => none
  | c :: rest =>
    if c == '"' then some ([], rest)
    else if c == '\\' then
      match rest with
      | [] => none
      | e :: rest₂ =>
        match unescChar e, parseStrBody rest₂ with
        | some d, some (cs, r) => some (d :: cs, r)
        | _, _ => none
    else
      match parseStrBody rest with
      | some (cs, r) => some (c :: cs, r)
      | none => none

/-- Longest digit prefix and the rest. -/
def takeDigits : List Char → List Char × List Char
  | [] => ([], [])
  | c :: rest =>
    if c.isDigit then
      let p := takeDigits rest
      (c :: p.1, p.2)
    else ([], c :: rest)

/-- Value of a digit string, most significant first. -/
def digitsToNat (ds : List Char) : Nat := ds.foldl (fun a c => 10 * a + digitVal c) 0

/-- Parse an integer literal (optional minus sign, then digits). -/
def parseNumber : List Char → Option (Int × List Char)
  | [] => none
  | c :: rest =>
    if c == '-' then
      match takeDigits rest with
      | ([], _) => none
      | (ds, r) => some (-(digitsToNat ds : Int), r)
    else if c.isDigit then
      let p := takeDigits (c :: rest)
      some ((digitsToNat p.1 : Int), p.2)
    else none

mutual

/-- Parse one JSON value (no leading whitespace expected; callers skip it). -/
def parseVal : Nat → List Char → Option (JVal × List Char)
  | 0, _ => none
  | Nat.succ fuel, s =>
    match s with
    | [] => none
    | c :: r =>
      if c == 'n' then
        match r with
        | 'u' :: 'l' :: 'l' :: r₂ => some (.jnull, r₂)
        | _ => none
      else if c == 't' then
        match r with
        | 'r' :: 'u' :: 'e' :: r₂ => some (.jbool true, r₂)
        | _ => none
      else if c == 'f' then
        match r with
        | 'a' :: 'l' :: 's' :: 'e' :: r₂ => some (.jbool false, r₂)
        | _ => none
      else if c == '"' then
        match parseStrBody r with
        | some (cs, r₂) => some (.jstr (String.mk cs), r₂)
        | none => none
      else if c == '[' then
        match skipWs r with
        | [] => none
        | d :: r₂ =>
          if d == ']' then some (.jarr [], r₂)
          else
            match parseArrItems fuel (d :: r₂) with
            | some (vs, r₃) => some (.jarr vs, r₃)
            | none => none
      else if c == '\x7b' then
        match skipWs r with
        | [] => none
        | d :: r₂ =>
          if d == '\x7d' then some (.jobj [], r₂)
          else
            match parseObjItems fuel (d :: r₂) with
            | some (kvs, r₃) => some (.jobj kvs, r₃)
            | none => none
      else
        match parseNumber (c :: r) with
        | some (n, r₂) => some (.jint n, r₂)
        | none => none

/-- Parse a non-empty comma-separated item list and the closing `]`. -/
def parseArrItems : Nat → List Char → Option (List JVal × List Char)
  | 0, _ => none
  | Nat.succ fuel, s =>
    match parseVal fuel s with
    | none => none
    | some (v, r) =>
      match skipWs r with
      | [] => none
      | c :: r₂ =>
        if c == ',' then
          match parseArrItems fuel (skipWs r₂) with
          | some (vs, r₃) => some (v :: vs, r₃)
          | none => none
        else if c == ']' then some ([v], r₂)
        else none

/-- Parse a non-empty `"key": value` list and the closing brace. -/
def parseObjItems : Nat → List Char → Option (List (String × JVal) × List Char)
  | 0, _ => none
  | Nat.succ fuel, s =>
    match s with
    | [] => none
    | c :: r =>
      if c == '"' then
        match parseStrBody r with
        | none => none
        | some (k, r₂) =>
          match skipWs r₂ with
          | [] => none
          | d :: r₃ =>
            if d == ':' then
              match parseVal fuel (skipWs r₃) with
              | none => none
              | some (v, r₄) =>
                match skipWs r₄ with
                | [] => none
                | e :: r₅ =>
                  if e == ',' then
                    match parseObjItems fuel (skipWs r₅) with
                    | some (kvs, r₆) => some ((String.mk k, v) :: kvs, r₆)
                    | none => none
                  else if e == '\x7d' then some ([(String.mk k, v)], r₅)
                  else none
            else none
      else none

end

/-- Model of `json.loads`: the whole input must be one JSON document,
surrounded only by whitespace; otherwise the parse fails (Python raises
`json.JSONDecodeError`, modelled as `none`). -/
def jsonLoads (s : String) : Option JVal :=
  match parseVal (2 * s.length + 2) (skipWs s.data) with
  | some (v, r) =>
    match skipWs r with
    | [] => some v
    | _ :: _ => none
  | none => none

/-! ### Size measure for the parser fuel -/

mutual

/-- Node count of a JSON value (fields of scalars count as one node). -/
def jsize : JVal → Nat
  | .jnull => 1
  | .jbool _ => 1
  | .jint _ => 1
  | .jstr _ => 1
  | .jarr xs => 1 + jsizeA xs
  | .jobj ps => 1 + jsizeO ps

/-- Node count of an item list. -/
def jsizeA : List JVal → Nat
  | [] => 0
  | x :: xs => 1 + jsize x + jsizeA xs

/-- Node count of a field list. -/
def jsizeO : List (String × JVal) → Nat
  | [] => 0
  | p :: ps => 1 + jsize p.2 + jsizeO ps

end

/-- True when the input does not continue with a digit (so a preceding
number literal cannot absorb it). -/
def noDigitHead : List Char → Bool
  | [] => true
  | c :: _ => !c.isDigit

/-! ### Python semantics helpers -/

/-- Python truthiness of a JSON value (`bool(v)`). -/
def pyTruthyV : JVal → Bool
  | .jnull => false
  | .jbool b => b
  | .jint n => !(n == 0)
  | .jstr s => !(s == "")
  | .jarr xs => !xs.isEmpty
  | .jobj ps => !ps.isEmpty

/-- Python truthiness of a possibly missing value (`bool(d.get(k))`:
a missing key yields `None`, which is falsy). -/
def pyTruthy : Option JVal → Bool
  | none => false
  | some v => pyTruthyV v

mutual

/-- Python `==` on the values the payload can carry: value equality,
with the usual `bool`/`int` unification (`True == 1`). Dictionaries are
compared field-by-field in order (the payload never compares dicts). -/
def pyEq : JVal → JVal → Bool
  | .jnull, .jnull => true
  | .jbool a, .jbool b => a == b
  | .jbool a, .jint m => (if a then (1 : Int) else 0) == m
  | .jint n, .jbool b => n == (if b then (1 : Int) else 0)
  | .jint n, .jint m => n == m
  | .jstr a, .jstr b => a == b
  | .jarr xs, .jarr ys => pyEqList xs ys
  | .jobj ps, .jobj qs => pyEqFields ps qs
  | _, _ => false

/-- Elementwise Python `==` on lists. -/
def pyEqList : List JVal → List JVal → Bool
  | [], [] => true
  | x :: xs, y :: ys => pyEq x y && pyEqList xs ys
  | _, _ => false

/-- Fieldwise Python `==` on ordered field lists. -/
def pyEqFields : List (String × JVal) → List (String × JVal) → Bool
  | [], [] => true
  | (k, v) :: ps, (k₂, v₂) :: qs => k == k₂ && pyEq v v₂ && pyEqFields ps qs
  | _, _ => false

end

/-- Escaping used by Python `repr` on a string (the common escapes;
other characters pass through). -/
def reprEscChar (c : Char) : List Char :=
  if c == '\\' then ['\\', '\\']
  else if c == '\x27' then ['\\', '\x27']
  else if c == '\n' then ['\\', 'n']
  else if c == '\t' then ['\\', 't']
  else if c == '\r' then ['\\', 'r']
  else [c]

/-- Escape a whole string body for `repr`. -/
def reprEscape : List Char → List Char
  | [] => []
  | c :: cs => reprEscChar c ++ reprEscape cs

/-- Python `repr` of a string: single-quoted with escapes (the program
only ever shows reprs inside feedback text). -/
def pyReprString (s : String) : String :=
  String.mk ('\x27' :: (reprEscape s.data ++ ['\x27']))

mutual

/-- Python `repr` of a payload value, as interpolated by `f"...{x!r}"`. -/
def pyRepr : JVal → String
  | .jnull => "None"
  | .jbool true => "True"
  | .jbool false => "False"
  | .jint n => String.mk (intDigits n)
  | .jstr s => pyReprString s
  | .jarr xs => "[" ++ pyReprItems xs ++ "]"
  | .jobj ps => "\x7b" ++ pyReprFields ps ++ "\x7d"

/-- Comma-separated reprs of list items. -/
def pyReprItems : List JVal → String
  | [] => ""
  | [x] => pyRepr x
  | x :: xs => pyRepr x ++ ", " ++ pyReprItems xs

/-- Comma-separated reprs of dict fields. -/
def pyReprFields : List (String × JVal) → String
  | [] => ""
  | [(k, v)] => pyReprString k ++ ": " ++ pyRepr v
  | (k, v) :: ps => pyReprString k ++ ": " ++ pyRepr v ++ ", " ++ pyReprFields ps

end

/-- Python `str` of a payload value, as interpolated by `f"...{x}"`:
strings appear verbatim, everything else as its repr. -/
def pyStr : JVal → String
  | .jstr s => s
  | v => pyRepr v

/-! ### Dict operations (`d.get`, `d[k] = v`, `k in d`) -/

/-- Lookup in an ordered field list (`dict.get`). -/
def jgetFields : List (String × JVal) → String → Option JVal
  | [], _ => none
  | (k₀, v₀) :: rest, k => if k₀ == k then some v₀ else jgetFields rest k

/-- Python `d.get(k)`: `none` both for a missing key and for a non-dict
receiver (the program only calls it on dicts). -/
def jget : JVal → String → Option JVal
  | .jobj fs, k => jgetFields fs k
  | _, _ => none

/-- Replace the value of a key, or append it, keeping insertion order —
the semantics of Python dict assignment. -/
def jsetFields : List (String × JVal) → String → JVal → List (String × JVal)
  | [], k, x => [(k, x)]
  | (k₀, v₀) :: rest, k, x =>
    if k₀ == k then (k₀, x) :: rest else (k₀, v₀) :: jsetFields rest k x

/-- Python `d[k] = x`: fails (raises `TypeError`) on a non-dict. -/
def jset : JVal → String → JVal → Option JVal
  | .jobj fs, k, x => some (.jobj (jsetFields fs k x))
  | _, _, _ => none

/-- Python `k in d` on a dict. -/
def jhasKey (v : JVal) (k : String) : Bool := (jget v k).isSome

/-! ### Process Isolation Runner (`run_user_code_capture_stdout`, lines 137-161) -/

/-- Captured result of one child-process execution: exit status, stdout
and stderr exactly as produced. -/
structure ExecutionResult where
  returncode : Int
  stdout : String
  stderr : String
deriving Repr, DecidableEq

/-- Outcome of the `subprocess.run` call: normal completion with the
captured streams, a `TimeoutExpired`, or some other spawn exception. -/
inductive ProcOutcome where
  | completed (returncode : Int) (stdout stderr : String) : ProcOutcome
  | timedOut : ProcOutcome
  | spawnError (msg : String) : ProcOutcome

/-- What the environment does to one Runner call.  The `with`
block creating and writing the temporary file precedes the
`try/finally`, so three phases can be observed separately: creating
the file itself fails (`NamedTemporaryFile` raises, nothing is on
disk); the file is created but `tmp.write` or the `with`-exit close
raises before the `try` is entered; or the file is fully written, the
process runs with some outcome, and the `finally` calls `os.remove`,
which deletes the file iff `removeOk` (the code swallows the exception
when removal fails). -/
inductive RunEvent where
  | tempCreateFail (msg : String) : RunEvent
  | tempWriteFail (msg : String) : RunEvent
  | proc (outcome : ProcOutcome) (removeOk : Bool) : RunEvent

/-- What a Runner call leaves behind: its returned value (or the
propagated exception, as `.error`) and whether the temporary file
still exists after the call. -/
structure RunnerReturn where
  result : Except String ExecutionResult
  tempRemains : Bool

/-- Model of `run_user_code_capture_stdout`: the temporary file is
created and written by a `with NamedTemporaryFile(delete=False)` block
that precedes the `try`, so a write failure propagates with the
created file still on disk; inside the `try` the interpreter runs,
`TimeoutExpired` is converted to the sentinel result
`(124, "", "Execution timed out")`, any other exception propagates,
and the `finally` calls `os.remove`, whose own failure is swallowed
(leaving the file behind when it fails). -/
def run_user_code_capture_stdout (ev : RunEvent) : RunnerReturn :=
  match ev with
  | .tempCreateFail m => { result := .error m, tempRemains := false }
  | .tempWriteFail m => { result := .error m, tempRemains := true }
  | .proc o removeOk =>
    let body : Except String ExecutionResult :=
      match o with
      | .completed rc so se => .ok { returncode := rc, stdout := so, stderr := se }
      | .timedOut => .ok { returncode := 124, stdout := "", stderr := "Execution timed out" }
      | .spawnError m => .error m
    { result := body, tempRemains := !removeOk }

/-! ### Harness Synthesizer semantics (`run_user_code_and_eval`, lines 164-191) -/

/-- One trusted check from the exercise catalog: an expression and the
expected value (`item.get('expr')`, `item.get('equals')`). -/
structure CheckSpec where
  expr : String
  equals : JVal
deriving Repr

/-- Abstraction of executing the untrusted candidate code inside the
harness: the outcome of `exec(compile(code...))` in a fresh namespace,
an oracle giving the outcome of `eval(expr, ns, ns)` for each
expression, and whatever stray text the candidate itself writes to
stdout before the harness prints its structured line. -/
structure CandidateExec where
  load : Except String Unit
  evalExpr : String → Except String JVal
  stray : String

/-- One entry of the harness's `results` list: either a computed value
with its comparison outcome, or the message of the exception the
evaluation raised. -/
inductive HarnessEntry where
  | valueEntry (expr : String) (value : JVal) (expected : JVal) (pass : Bool) : HarnessEntry
  | errorEntry (expr : String) (msg : String) (pass : Bool) : HarnessEntry
deriving Repr

/-- The `pass` field of an entry. -/
def entryPass : HarnessEntry → Bool
  | .valueEntry _ _ _ p => p
  | .errorEntry _ _ p => p

/-- The harness's check loop: `ok` starts true and is cleared on a
mismatch or an evaluation error; each check appends exactly one entry
and a raising check never aborts the loop. -/
def harnessChecks (ev : String → Except String JVal) :
    List CheckSpec → Bool → Bool × List HarnessEntry
  | [], ok => (ok, [])
  | c :: rest, ok =>
    match ev c.expr with
    | .ok v =>
      let eq := pyEq v c.equals
      let next := harnessChecks ev rest (if eq then ok else false)
      (next.1, .valueEntry c.expr v c.equals eq :: next.2)
    | .error m =>
      let next := harnessChecks ev rest false
      (next.1, .errorEntry c.expr m false :: next.2)

/-- The single structured payload the harness prints: either
`{'ok': ok, 'results': results}` after the loop, or
`{'ok': False, 'error': msg, 'results': []}` when the candidate code
failed to load. -/
inductive HarnessPayload where
  | resultsPayload (ok : Bool) (results : List HarnessEntry) : HarnessPayload
  | loadFailPayload (msg : String) : HarnessPayload
deriving Repr

/-- Semantics of the generated harness program (lines 169-191). -/
def runHarness (m : CandidateExec) (checks : List CheckSpec) : HarnessPayload :=
  match m.load with
  | .error e => .loadFailPayload e
  | .ok _ =>
    let r := harnessChecks m.evalExpr checks true
    .resultsPayload r.1 r.2

/-- JSON form of one result entry, with the dict insertion order the
harness uses (`expr`, `value`, `expected`, `pass` / `expr`, `error`,
`pass`). -/
def entryToJson : HarnessEntry → JVal
  | .valueEntry e v exp p =>
    .jobj [("expr", .jstr e), ("value", v), ("expected", exp), ("pass", .jbool p)]
  | .errorEntry e m p => .jobj [("expr", .jstr e), ("error", .jstr m), ("pass", .jbool p)]

/-- JSON forms of all result entries. -/
def entriesToJson : List HarnessEntry → List JVal
  | [] => []
  | e :: rest => entryToJson e :: entriesToJson rest

/-- JSON form of the payload the harness prints. -/
def payloadToJson : HarnessPayload → JVal
  | .resultsPayload ok rs => .jobj [("ok", .jbool ok), ("results", .jarr (entriesToJson rs))]
  | .loadFailPayload m =>
    .jobj [("ok", .jbool false), ("error", .jstr m), ("results", .jarr [])]

/-- Everything the harness process writes to stdout: the candidate's
stray output followed by the one `print(json.dumps(...))` line. -/
def harnessStdout (m : CandidateExec) (checks : List CheckSpec) : String :=
  m.stray ++ jsonDumps (payloadToJson (runHarness m checks)) ++ "\n"

/-! ### Dispatcher: parsing the payload (`run_user_code_and_eval`, lines 192-199) -/

/-- Lines 193-199: `json.loads(out.get("stdout") or "{}")`, with a
parse failure replaced by `{"ok": False, "error": stderr or "Invalid
output"}`, then `data["stderr"] = ...` and `data["returncode"] = ...`.
`none` models the `TypeError` that would escape if the parsed document
were not a dict. -/
def run_user_code_and_eval_post (out : ExecutionResult) : Option JVal :=
  let data : JVal :=
    match jsonLoads (if out.stdout == "" then "\x7b\x7d" else out.stdout) with
    | some d => d
    | none =>
      .jobj [("ok", .jbool false),
             ("error", .jstr (if out.stderr == "" then "Invalid output" else out.stderr))]
  (jset data "stderr" (.jstr out.stderr)).bind fun d₂ =>
    jset d₂ "returncode" (.jint out.returncode)

/-! ### Dispatcher: the `evaluate` route (lines 241-289) -/

/-- The `details` value attached to an `EvaluateResult`: the raw
execution dict for stdout modes, the augmented payload dict for eval
mode. -/
inductive GradeDetails where
  | execDetails (out : ExecutionResult) : GradeDetails
  | payloadDetails (res : JVal) : GradeDetails

/-- The response model `EvaluateResult(passed, feedback, details)`. -/
structure EvaluateResult where
  passed : Bool
  feedback : String
  details : GradeDetails

/-- Lines 250-257: grade a `stdout` exercise. -/
def gradeStdout (expected : String) (out : ExecutionResult) : EvaluateResult :=
  let ok := out.returncode == 0 && out.stdout == expected
  { passed := ok
    feedback :=
      if ok then "Great job!"
      else
        "Expected output: " ++ pyReprString expected ++ ", but got: "
          ++ pyReprString out.stdout ++ ". "
          ++ (if out.stderr == "" then "" else "Error: " ++ out.stderr)
    details := .execDetails out }

/-- Lines 259-267: grade a `stdout_with_preset` exercise (identical
comparison, different success message). -/
def gradeStdoutPreset (expected : String) (out : ExecutionResult) : EvaluateResult :=
  let ok := out.returncode == 0 && out.stdout == expected
  { passed := ok
    feedback :=
      if ok then "Nice!"
      else
        "Expected output: " ++ pyReprString expected ++ ", but got: "
          ++ pyReprString out.stdout ++ ". "
          ++ (if out.stderr == "" then "" else "Error: " ++ out.stderr)
    details := .execDetails out }

/-- The iteration `for r in res.get("results", []) or []`: a falsy
value iterates as nothing; a truthy non-list raises (modelled as
`.error ()`, since iterating it or calling `.get` on its elements
raises either way). -/
def resultsIter (v : JVal) : Except Unit (List JVal) :=
  if pyTruthyV v = false then .ok []
  else
    match v with
    | .jarr xs => .ok xs
    | _ => .error ()

/-- Lines 279-283: the message for one result entry — `none` when the
entry passed, the formatted line when it failed, `.error ()` for the
`KeyError`/`AttributeError` a malformed entry would raise. -/
def checkMsg (r : JVal) : Except Unit (Option String) :=
  match r with
  | .jobj _ =>
    if pyTruthy (jget r "pass") then .ok none
    else if jhasKey r "error" then
      match jget r "expr", jget r "error" with
      | some e, some err => .ok (some (pyStr e ++ ": error " ++ pyStr err))
      | _, _ => .error ()
    else
      match jget r "expr", jget r "expected", jget r "value" with
      | some e, some exp, some v =>
        .ok (some (pyStr e ++ ": expected " ++ pyRepr exp ++ ", got " ++ pyRepr v))
      | _, _, _ => .error ()
  | _ => .error ()

/-- Collect the failing-check messages of all result entries, in order. -/
def msgsOf : List JVal → Except Unit (List String)
  | [] => .ok []
  | r :: rest =>
    match checkMsg r with
    | .error e => .error e
    | .ok none => msgsOf rest
    | .ok (some m) =>
      match msgsOf rest with
      | .error e => .error e
      | .ok ms => .ok (m :: ms)

/-- Lines 269-287: the `eval` branch of `evaluate`, from the augmented
payload dict to the graded response. -/
def evalGrade (res : JVal) : Except Unit EvaluateResult :=
  match res with
  | .jobj _ =>
    let ok := pyTruthy (jget res "ok")
    if ok then .ok { passed := true, feedback := "All tests passed!", details := .payloadDetails res }
    else
      match resultsIter ((jget res "results").getD (.jarr [])) with
      | .error e => .error e
      | .ok rs =>
        match msgsOf rs with
        | .error e => .error e
        | .ok msgs =>
          let msgs₂ :=
            if msgs.isEmpty && pyTruthy (jget res "error") then
              [pyStr ((jget res "error").getD .jnull)]
            else msgs
          .ok { passed := false
                feedback :=
                  if msgs₂.isEmpty then "Some tests failed."
                  else String.intercalate "; " msgs₂
                details := .payloadDetails res }
  | _ => .error ()

/-- The whole eval-mode postprocessing: parse/augment the harness
process's captured output, then grade it. `.error ()` is an exception
escaping the grading call. -/
def evalPipeline (out : ExecutionResult) : Except Unit EvaluateResult :=
  match run_user_code_and_eval_post out with
  | none => .error ()
  | some res => evalGrade res

/-! ### Exercise catalog and the `evaluate` route -/

/-- The `tests` spec of an exercise, keyed by its `type` tag. -/
inductive TestsSpec where
  | stdoutSpec (expected : String) : TestsSpec
  | stdoutWithPreset (preset : String) (expected : String) : TestsSpec
  | evalSpec (checks : List CheckSpec) : TestsSpec
  | unknownSpec (tag : String) : TestsSpec

/-- One exercise of the static catalog. -/
structure Exercise where
  id : String
  title : String
  prompt : String
  starter_code : String
  tests : TestsSpec

/-- One chapter of the static catalog. -/
structure Chapter where
  id : String
  title : String
  description : String
  exercises : List Exercise

/-- The static seed catalog `CHAPTERS` (lines 26-106). -/
def CHAPTERS : List Chapter :=
  [ { id := "basics", title := "Python Basics",
      description := "Print, variables, and simple expressions",
      exercises :=
        [ { id := "print-hello", title := "Print Hello World",
            prompt := "Write code that prints exactly: Hello, World!",
            starter_code := "# Write a print statement below\n",
            tests := .stdoutSpec "Hello, World!\n" },
          { id := "variables-sum", title := "Variables and Sum",
            prompt := "Create two variables a = 5 and b = 7 and print their sum.",
            starter_code := "# Define a and b, then print their sum\n",
            tests := .stdoutSpec "12\n" } ] },
    { id := "functions", title := "Functions",
      description := "Define and call functions",
      exercises :=
        [ { id := "def-add", title := "Define add(a, b)",
            prompt := "Define a function add(a, b) that returns the sum of a and b.",
            starter_code := "# Define add(a, b) below\n",
            tests := .evalSpec
              [ { expr := "add(2, 3)", equals := .jint 5 },
                { expr := "add(-1, 1)", equals := .jint 0 },
                { expr := "add(10, 5)", equals := .jint 15 } ] },
          { id := "def-greet", title := "Function greet(name)",
            prompt := "Write a function greet(name) that returns \x27Hello, <name>!\x27.",
            starter_code := "# Define greet(name) below\n",
            tests := .evalSpec
              [ { expr := "greet(\x27Ada\x27)", equals := .jstr "Hello, Ada!" },
                { expr := "greet(\x27Bob\x27)", equals := .jstr "Hello, Bob!" } ] } ] },
    { id := "loops", title := "Loops",
      description := "For and while loops",
      exercises :=
        [ { id := "sum-1-to-n", title := "Sum 1..n",
            prompt := "Read n from a variable and print the sum from 1 to n (inclusive). Assume n = 5.",
            starter_code := "# Set n and print the sum from 1 to n\n# Example: if n = 5, output should be 15\n",
            tests := .stdoutWithPreset "n = 5\n" "15\n" } ] } ]

/-- Inner loop of `find_exercise` over one chapter's exercises. -/
def find_in_chapter : List Exercise → String → Option Exercise
  | [], _ => none
  | ex :: rest, eid => if ex.id == eid then some ex else find_in_chapter rest eid

/-- Lines 124-130: find an exercise by chapter id and exercise id; a
chapter whose id matches but which lacks the exercise does not stop the
search. -/
def find_exercise : List Chapter → String → String → Option Exercise
  | [], _, _ => none
  | ch :: rest, cid, eid =>
    if ch.id == cid then
      match find_in_chapter ch.exercises eid with
      | some ex => some ex
      | none => find_exercise rest cid eid
    else find_exercise rest cid eid

/-- The two ways `evaluate` reaches the Runner: directly with the
candidate code and a preset, or with the synthesized harness for the
candidate code and the trusted checks. `.error` is a transport-level
exception (temp file or spawn failure) propagating out of the Runner. -/
structure Runners where
  runPlain : String → String → Except String ExecutionResult
  runEvalHarness : String → List CheckSpec → Except String ExecutionResult

/-- What one call of the `evaluate` route produces: an HTTP error
response, a graded response, a propagated transport exception, or a
propagated Python-level exception. -/
inductive EvaluateOutcome where
  | httpError (status : Nat) (detail : String) : EvaluateOutcome
  | gradeOutcome (r : EvaluateResult) : EvaluateOutcome
  | transportError (msg : String) : EvaluateOutcome
  | pyError : EvaluateOutcome

/-- Lines 241-289: the `evaluate` route. The catalog is threaded
through to state what the call leaves of it. -/
def evaluate (R : Runners) (chapters : List Chapter)
    (chapterId exerciseId code : String) : List Chapter × EvaluateOutcome :=
  match find_exercise chapters chapterId exerciseId with
  | none => (chapters, .httpError 404 "Exercise not found")
  | some ex =>
    match ex.tests with
    | .stdoutSpec expected =>
      match R.runPlain code "" with
      | .error m => (chapters, .transportError m)
      | .ok out => (chapters, .gradeOutcome (gradeStdout expected out))
    | .stdoutWithPreset preset expected =>
      match R.runPlain code preset with
      | .error m => (chapters, .transportError m)
      | .ok out => (chapters, .gradeOutcome (gradeStdoutPreset expected out))
    | .evalSpec checks =>
      match R.runEvalHarness code checks with
      | .error m => (chapters, .transportError m)
      | .ok out =>
        match evalPipeline out with
        | .error _ => (chapters, .pyError)
        | .ok gr => (chapters, .gradeOutcome gr)
    | .unknownSpec _ => (chapters, .httpError 400 "Unknown test type")

/-! ## Lemmas: serialization round trip -/

theorem jsonLoads_empty_obj : jsonLoads "\x7b\x7d" = some (.jobj []) := rfl

theorem jsonLoads_scalars :
    jsonLoads " null \n" = some .jnull ∧
    jsonLoads "[1, -25, \"a b\"]" = some (.jarr [.jint 1, .jint (-25), .jstr "a b"]) ∧
    jsonLoads "\x7b\"ok\": true, \"results\": []\x7d\n" =
      some (.jobj [("ok", .jbool true), ("results", .jarr [])]) ∧
    jsonLoads "hi\n\x7b\"ok\": true\x7d" = none ∧
    jsonLoads "[1,]" = none ∧
    jsonDumps (.jobj [("ok", .jbool true), ("results", .jarr [])]) =
      "\x7b\"ok\": true, \"results\": []\x7d" :=
  ⟨rfl, rfl, rfl, rfl, rfl, rfl⟩

theorem beq_false_of_ne {c d : Char} (h : c ≠ d) : (c == d) = false :=
  beq_eq_false_iff_ne.mpr h

theorem digit_beq_false {c d : Char} (hc : c.isDigit = true) (hd : d.isDigit = false) :
    (c == d) = false := by
  refine beq_false_of_ne fun he => ?_
  rw [he, hd] at hc
  exact Bool.false_ne_true hc

theorem skipWs_cons_of_not_ws {c : Char} (r : List Char) (h : isWsChar c = false) :
    skipWs (c :: r) = c :: r := by
  simp [skipWs, h]

theorem skipWs_cons_of_ws {c : Char} (r : List Char) (h : isWsChar c = true) :
    skipWs (c :: r) = skipWs r := by
  simp [skipWs, h]

theorem parseStrBody_esc : ∀ (cs rest : List Char),
    parseStrBody (escString cs ++ ('"' :: rest)) = some (cs, rest)
  | [], rest => by
    rw [escString, List.nil_append, parseStrBody.eq_def]
    simp
  | c :: cs, rest => by
    have ih := parseStrBody_esc cs rest
    by_cases h1 : c = '"'
    · subst h1
      simp only [escString, escStrChar]
      norm_num
      rw [parseStrBody.eq_def]
      simp [show unescChar '"' = some '"' from rfl, ih]
    by_cases h2 : c = '\\'
    · subst h2
      simp only [escString, escStrChar]
      norm_num
      rw [parseStrBody.eq_def]
      simp [show unescChar '\\' = some '\\' from rfl, ih]
    by_cases h3 : c = '\n'
    · subst h3
      simp only [escString, escStrChar]
      norm_num
      rw [parseStrBody.eq_def]
      simp [show unescChar 'n' = some '\n' from rfl, ih]
    by_cases h4 : c = '\t'
    · subst h4
      simp only [escString, escStrChar]
      norm_num
      rw [parseStrBody.eq_def]
      simp [show unescChar 't' = some '\t' from rfl, ih]
    by_cases h5 : c = '\r'
    · subst h5
      simp only [escString, escStrChar]
      norm_num
      rw [parseStrBody.eq_def]
      simp [show unescChar 'r' = some '\r' from rfl, ih]
    · have he : escStrChar c = [c] := by
        simp [escStrChar, h1, h2, h3, h4, h5]
      simp only [escString, he, List.cons_append, List.nil_append]
      rw [parseStrBody.eq_def]
      simp [beq_false_of_ne h1, beq_false_of_ne h2, ih]

theorem digitCharOf_isDigit : ∀ m : Nat, (digitCharOf m).isDigit = true := by
  intro m
  rcases m with _|_|_|_|_|_|_|_|_|n <;> rfl

theorem digitVal_digitCharOf {m : Nat} (h : m < 10) : digitVal (digitCharOf m) = m := by
  interval_cases m <;> decide

theorem natDigitsF_spec : ∀ (fuel n : Nat), n < fuel →
    (∃ c cs, natDigitsF fuel n = c :: cs ∧ c.isDigit = true) ∧
    (∀ c ∈ natDigitsF fuel n, c.isDigit = true) ∧
    digitsToNat (natDigitsF fuel n) = n := by
  intro fuel
  induction fuel with
  | zero => omega
  | succ f ih =>
    intro n hn
    by_cases h10 : n < 10
    · refine ⟨⟨digitCharOf n, [], by simp [natDigitsF, h10], digitCharOf_isDigit n⟩, ?_, ?_⟩
      · intro c hc
        simp only [natDigitsF, if_pos h10, List.mem_singleton] at hc
        rw [hc]; exact digitCharOf_isDigit n
      · simp [natDigitsF, h10, digitsToNat, digitVal_digitCharOf h10]
    · have hdiv : n / 10 < f := by
        have h1 : n / 10 < n := Nat.div_lt_self (by omega) (by omega)
        omega
      obtain ⟨⟨c, cs, hcons, hcd⟩, hall, hval⟩ := ih (n / 10) hdiv
      refine ⟨⟨c, cs ++ [digitCharOf (n % 10)], ?_, hcd⟩, ?_, ?_⟩
      · simp [natDigitsF, h10, hcons]
      · intro d hd
        simp only [natDigitsF, if_neg h10, List.mem_append, List.mem_singleton] at hd
        rcases hd with hd | hd
        · exact hall d hd
        · rw [hd]; exact digitCharOf_isDigit _
      · have happ : digitsToNat (natDigitsF f (n / 10) ++ [digitCharOf (n % 10)]) =
            10 * digitsToNat (natDigitsF f (n / 10)) + digitVal (digitCharOf (n % 10)) := by
          simp [digitsToNat, List.foldl_append]
        simp only [natDigitsF, if_neg h10]
        rw [happ, hval, digitVal_digitCharOf (Nat.mod_lt n (by omega))]
        omega

theorem natDigits_spec (n : Nat) :
    (∃ c cs, natDigits n = c :: cs ∧ c.isDigit = true) ∧
    (∀ c ∈ natDigits n, c.isDigit = true) ∧
    digitsToNat (natDigits n) = n := by
  have h := natDigitsF_spec (n + 1) n (by omega)
  simpa [natDigits] using h

theorem takeDigits_cons (c : Char) (r : List Char) :
    takeDigits (c :: r) =
      if c.isDigit then (c :: (takeDigits r).1, (takeDigits r).2) else ([], c :: r) := rfl

theorem takeDigits_append : ∀ (ds rest : List Char),
    (∀ c ∈ ds, c.isDigit = true) → noDigitHead rest = true →
    takeDigits (ds ++ rest) = (ds, rest)
  | [], rest, _, hr => by
    cases rest with
    | nil => rfl
    | cons c r =>
      have hc : c.isDigit = false := by
        simpa [noDigitHead] using hr
      rw [List.nil_append, takeDigits_cons]
      simp [hc]
  | d :: ds, rest, hds, hr => by
    have hd : d.isDigit = true := hds d (List.mem_cons_self d ds)
    have ih := takeDigits_append ds rest (fun c hc => hds c (List.mem_cons_of_mem d hc)) hr
    rw [List.cons_append, takeDigits_cons]
    simp [hd, ih]

theorem parseNumber_cons (c : Char) (rest : List Char) :
    parseNumber (c :: rest) =
      if c == '-' then
        match takeDigits rest with
        | ([], _) => none
        | (ds, r) => some (-(digitsToNat ds : Int), r)
      else if c.isDigit then
        some ((digitsToNat (takeDigits (c :: rest)).1 : Int), (takeDigits (c :: rest)).2)
      else none := rfl

theorem parseNumber_natDigits (m : Nat) (rest : List Char) (hr : noDigitHead rest = true) :
    parseNumber (natDigits m ++ rest) = some ((m : Int), rest) := by
  obtain ⟨⟨c, cs, hcons, hcd⟩, hall, hval⟩ := natDigits_spec m
  have hminus : (c == '-') = false := digit_beq_false hcd (by decide)
  have htake : takeDigits (natDigits m ++ rest) = (natDigits m, rest) :=
    takeDigits_append _ _ hall hr
  rw [hcons] at htake ⊢
  rw [List.cons_append, parseNumber_cons]
  simp only [hminus, Bool.false_eq_true, if_false, hcd, if_true, ← List.cons_append, htake]
  rw [← hcons, hval]

theorem parseNumber_intDigits : ∀ (n : Int) (rest : List Char), noDigitHead rest = true →
    parseNumber (intDigits n ++ rest) = some (n, rest)
  | .ofNat m, rest, hr => by
    rw [intDigits]
    exact parseNumber_natDigits m rest hr
  | .negSucc m, rest, hr => by
    obtain ⟨⟨c, cs, hcons, hcd⟩, hall, hval⟩ := natDigits_spec (m + 1)
    have htake : takeDigits (natDigits (m + 1) ++ rest) = (natDigits (m + 1), rest) :=
      takeDigits_append _ _ hall hr
    have hneg : -(((m + 1 : Nat) : Int)) = Int.negSucc m := by
      rw [Int.negSucc_eq]
      push_cast
      ring
    have hc : ('-' == '-') = true := rfl
    rw [intDigits, List.cons_append, parseNumber_cons, if_pos hc, htake, hcons]
    show some (-(digitsToNat (c :: cs) : Int), rest) = some (Int.negSucc m, rest)
    rw [← hcons, hval, hneg]

theorem jsize_pos : ∀ v : JVal, 1 ≤ jsize v := by
  intro v
  cases v <;> simp [jsize]

theorem jsizeA_cons (x : JVal) (xs : List JVal) :
    jsizeA (x :: xs) = 1 + jsize x + jsizeA xs := by
  simp [jsizeA]

theorem jsizeO_cons (p : String × JVal) (ps : List (String × JVal)) :
    jsizeO (p :: ps) = 1 + jsize p.2 + jsizeO ps := by
  simp [jsizeO]

theorem digit_not_ws {c : Char} (hc : c.isDigit = true) : isWsChar c = false := by
  simp only [isWsChar, digit_beq_false hc (by decide : (' ').isDigit = false),
    digit_beq_false hc (by decide : ('\n').isDigit = false),
    digit_beq_false hc (by decide : ('\t').isDigit = false),
    digit_beq_false hc (by decide : ('\r').isDigit = false), Bool.or_self, Bool.or_false]

theorem dumpVal_head : ∀ v : JVal, ∃ c cs, dumpVal v = c :: cs ∧
    isWsChar c = false ∧ (c == ']') = false ∧ (c == '\x7d') = false := by
  intro v
  cases v with
  | jnull => exact ⟨'n', _, rfl, by decide, by decide, by decide⟩
  | jbool b =>
    cases b
    · exact ⟨'f', _, rfl, by decide, by decide, by decide⟩
    · exact ⟨'t', _, rfl, by decide, by decide, by decide⟩
  | jint n =>
    cases n with
    | ofNat m =>
      obtain ⟨⟨c, cs, hcons, hcd⟩, -, -⟩ := natDigits_spec m
      refine ⟨c, cs, ?_, digit_not_ws hcd, digit_beq_false hcd (by decide),
        digit_beq_false hcd (by decide)⟩
      simp [dumpVal, intDigits, hcons]
    | negSucc m =>
      exact ⟨'-', natDigits (m + 1), rfl, by decide, by decide, by decide⟩
  | jstr s => exact ⟨'"', _, rfl, by decide, by decide, by decide⟩
  | jarr xs =>
    cases xs
    · exact ⟨'[', _, rfl, by decide, by decide, by decide⟩
    · exact ⟨'[', _, rfl, by decide, by decide, by decide⟩
  | jobj ps =>
    cases ps
    · exact ⟨'\x7b', _, rfl, by decide, by decide, by decide⟩
    · exact ⟨'\x7b', _, rfl, by decide, by decide, by decide⟩

theorem noDigitHead_dumpArrTail (xs : List JVal) (rest : List Char) :
    noDigitHead (dumpArrTail xs ++ (']' :: rest)) = true := by
  cases xs <;> simp [dumpArrTail, noDigitHead]

theorem noDigitHead_dumpObjTail (ps : List (String × JVal)) (rest : List Char) :
    noDigitHead (dumpObjTail ps ++ ('\x7d' :: rest)) = true := by
  cases ps <;> simp [dumpObjTail, noDigitHead]

theorem parseVal_nullStep (f : Nat) (rest : List Char) :
    parseVal (f + 1) ('n' :: 'u' :: 'l' :: 'l' :: rest) = some (.jnull, rest) := rfl

theorem parseVal_trueStep (f : Nat) (rest : List Char) :
    parseVal (f + 1) ('t' :: 'r' :: 'u' :: 'e' :: rest) = some (.jbool true, rest) := rfl

theorem parseVal_falseStep (f : Nat) (rest : List Char) :
    parseVal (f + 1) ('f' :: 'a' :: 'l' :: 's' :: 'e' :: rest) = some (.jbool false, rest) := rfl

theorem parseVal_quoteStep (f : Nat) (r : List Char) :
    parseVal (f + 1) ('"' :: r) =
      (match parseStrBody r with
       | some (cs, r₂) => some (.jstr (String.mk cs), r₂)
       | none => none) := rfl

theorem parseVal_bracketStep (f : Nat) (r : List Char) :
    parseVal (f + 1) ('[' :: r) =
      (match skipWs r with
       | [] => none
       | d :: r₂ =>
         if d == ']' then some (.jarr [], r₂)
         else
           match parseArrItems f (d :: r₂) with
           | some (vs, r₃) => some (.jarr vs, r₃)
           | none => none) := rfl

theorem parseVal_braceStep (f : Nat) (r : List Char) :
    parseVal (f + 1) ('\x7b' :: r) =
      (match skipWs r with
       | [] => none
       | d :: r₂ =>
         if d == '\x7d' then some (.jobj [], r₂)
         else
           match parseObjItems f (d :: r₂) with
           | some (kvs, r₃) => some (.jobj kvs, r₃)
           | none => none) := rfl

theorem parseArrItems_step (f : Nat) (s : List Char) :
    parseArrItems (f + 1) s =
      (match parseVal f s with
       | none => none
       | some (v, r) =>
         match skipWs r with
         | [] => none
         | c :: r₂ =>
           if c == ',' then
             match parseArrItems f (skipWs r₂) with
             | some (vs, r₃) => some (v :: vs, r₃)
             | none => none
           else if c == ']' then some ([v], r₂)
           else none) := rfl

theorem parseObjItems_step (f : Nat) (s : List Char) :
    parseObjItems (f + 1) s =
      (match s with
       | [] => none
       | c :: r =>
         if c == '"' then
           match parseStrBody r with
           | none => none
           | some (k, r₂) =>
             match skipWs r₂ with
             | [] => none
             | d :: r₃ =>
               if d == ':' then
                 match parseVal f (skipWs r₃) with
                 | none => none
                 | some (v, r₄) =>
                   match skipWs r₄ with
                   | [] => none
                   | e :: r₅ =>
                     if e == ',' then
                       match parseObjItems f (skipWs r₅) with
                       | some (kvs, r₆) => some ((String.mk k, v) :: kvs, r₆)
                       | none => none
                     else if e == '\x7d' then some ([(String.mk k, v)], r₅)
                     else none
               else none
         else none) := rfl

set_option maxHeartbeats 1000000 in
theorem parseVal_numStep (f : Nat) (c : Char) (r : List Char)
    (hc : c.isDigit = true ∨ c = '-') :
    parseVal (f + 1) (c :: r) =
      (match parseNumber (c :: r) with
       | some (n, r₂) => some (.jint n, r₂)
       | none => none) := by
  have h1 : (c == 'n') = false := by
    rcases hc with hd | rfl
    · exact digit_beq_false hd (by decide)
    · decide
  have h2 : (c == 't') = false := by
    rcases hc with hd | rfl
    · exact digit_beq_false hd (by decide)
    · decide
  have h3 : (c == 'f') = false := by
    rcases hc with hd | rfl
    · exact digit_beq_false hd (by decide)
    · decide
  have h4 : (c == '"') = false := by
    rcases hc with hd | rfl
    · exact digit_beq_false hd (by decide)
    · decide
  have h5 : (c == '[') = false := by
    rcases hc with hd | rfl
    · exact digit_beq_false hd (by decide)
    · decide
  have h6 : (c == '\x7b') = false := by
    rcases hc with hd | rfl
    · exact digit_beq_false hd (by decide)
    · decide
  rw [parseVal.eq_def]
  simp only [h1, h2, h3, h4, h5, h6, Bool.false_eq_true, if_false]

theorem skipWs_dump_append (v : JVal) (R : List Char) :
    skipWs (dumpVal v ++ R) = dumpVal v ++ R := by
  obtain ⟨c, cs, hcons, hws, -, -⟩ := dumpVal_head v
  rw [hcons, List.cons_append, skipWs_cons_of_not_ws _ hws]

theorem skipWs_pair_append (p : String × JVal) (R : List Char) :
    skipWs (dumpPair p ++ R) = dumpPair p ++ R := by
  obtain ⟨k, v⟩ := p
  rw [show dumpPair (k, v) = '"' :: (escString k.data ++ ('"' :: ':' :: ' ' :: dumpVal v))
    from rfl, List.cons_append, skipWs_cons_of_not_ws _ (by decide)]

theorem parse_dump_all : ∀ fuel : Nat,
    (∀ (v : JVal) (rest : List Char), jsize v ≤ fuel → noDigitHead rest = true →
      parseVal fuel (dumpVal v ++ rest) = some (v, rest)) ∧
    (∀ (x : JVal) (xs : List JVal) (rest : List Char), jsizeA (x :: xs) ≤ fuel →
      parseArrItems fuel (dumpVal x ++ (dumpArrTail xs ++ (']' :: rest))) =
        some (x :: xs, rest)) ∧
    (∀ (p : String × JVal) (ps : List (String × JVal)) (rest : List Char),
      jsizeO (p :: ps) ≤ fuel →
      parseObjItems fuel (dumpPair p ++ (dumpObjTail ps ++ ('\x7d' :: rest))) =
        some (p :: ps, rest)) := by
  intro fuel
  induction fuel with
  | zero =>
    refine ⟨?_, ?_, ?_⟩
    · intro v rest hs _
      have := jsize_pos v
      omega
    · intro x xs rest hs
      rw [jsizeA_cons] at hs
      omega
    · intro p ps rest hs
      rw [jsizeO_cons] at hs
      omega
  | succ f ih =>
    obtain ⟨ihV, ihA, ihO⟩ := ih
    refine ⟨?_, ?_, ?_⟩
    · -- one value
      intro v rest hs hr
      cases v with
      | jnull => exact parseVal_nullStep f rest
      | jbool b =>
        cases b
        · exact parseVal_falseStep f rest
        · exact parseVal_trueStep f rest
      | jint n =>
        cases n with
        | ofNat m =>
          obtain ⟨⟨c, cs, hcons, hcd⟩, -, -⟩ := natDigits_spec m
          rw [show dumpVal (.jint (Int.ofNat m)) = natDigits m from rfl, hcons,
            List.cons_append, parseVal_numStep f c (cs ++ rest) (Or.inl hcd),
            ← List.cons_append, ← hcons, parseNumber_natDigits m rest hr]
          rfl
        | negSucc m =>
          rw [show dumpVal (.jint (Int.negSucc m)) = '-' :: natDigits (m + 1) from rfl,
            List.cons_append, parseVal_numStep f '-' _ (Or.inr rfl)]
          have h2 : parseNumber ('-' :: (natDigits (m + 1) ++ rest)) =
              some (Int.negSucc m, rest) := parseNumber_intDigits (Int.negSucc m) rest hr
          rw [h2]
      | jstr s =>
        have hshape : dumpVal (.jstr s) ++ rest = '"' :: (escString s.data ++ ('"' :: rest)) := by
          show ('"' :: (escString s.data ++ ['"'])) ++ rest = _
          simp [List.append_assoc]
        rw [hshape, parseVal_quoteStep, parseStrBody_esc s.data rest]
      | jarr xs =>
        cases xs with
        | nil => rfl
        | cons x xs =>
          have hA : jsizeA (x :: xs) ≤ f := by
            have h1 : jsize (.jarr (x :: xs)) = 1 + jsizeA (x :: xs) := by simp [jsize]
            omega
          have hshape : dumpVal (.jarr (x :: xs)) ++ rest =
              '[' :: (dumpVal x ++ (dumpArrTail xs ++ (']' :: rest))) := by
            show ('[' :: ((dumpVal x ++ dumpArrTail xs) ++ [']'])) ++ rest = _
            simp [List.append_assoc]
          obtain ⟨c, cs, hcons, hws, hbr, -⟩ := dumpVal_head x
          rw [hshape, parseVal_bracketStep, skipWs_dump_append, hcons, List.cons_append]
          simp only [hbr, Bool.false_eq_true, if_false]
          rw [← List.cons_append, ← hcons, ihA x xs rest hA]
      | jobj ps =>
        cases ps with
        | nil => rfl
        | cons p ps =>
          have hO : jsizeO (p :: ps) ≤ f := by
            have h1 : jsize (.jobj (p :: ps)) = 1 + jsizeO (p :: ps) := by simp [jsize]
            omega
          have hshape : dumpVal (.jobj (p :: ps)) ++ rest =
              '\x7b' :: (dumpPair p ++ (dumpObjTail ps ++ ('\x7d' :: rest))) := by
            show ('\x7b' :: ((dumpPair p ++ dumpObjTail ps) ++ ['\x7d'])) ++ rest = _
            simp [List.append_assoc]
          obtain ⟨k, v⟩ := p
          rw [hshape, parseVal_braceStep, skipWs_pair_append]
          rw [show dumpPair (k, v) = '"' :: (escString k.data ++ ('"' :: ':' :: ' ' :: dumpVal v))
            from rfl, List.cons_append]
          simp only [show (('"' : Char) == '\x7d') = false from by decide,
            Bool.false_eq_true, if_false]
          rw [← List.cons_append,
            ← show dumpPair (k, v) = '"' :: (escString k.data ++ ('"' :: ':' :: ' ' :: dumpVal v))
              from rfl,
            ihO (k, v) ps rest hO]
    · -- array items
      intro x xs rest hs
      rw [jsizeA_cons] at hs
      have hx : jsize x ≤ f := by omega
      rw [parseArrItems_step,
        ihV x (dumpArrTail xs ++ (']' :: rest)) hx (noDigitHead_dumpArrTail xs rest)]
      cases xs with
      | nil => rfl
      | cons y ys =>
        have hys : jsizeA (y :: ys) ≤ f := by omega
        have hshape : dumpArrTail (y :: ys) ++ (']' :: rest) =
            ',' :: ' ' :: (dumpVal y ++ (dumpArrTail ys ++ (']' :: rest))) := by
          show (',' :: ' ' :: (dumpVal y ++ dumpArrTail ys)) ++ (']' :: rest) = _
          simp [List.append_assoc]
        rw [hshape]
        show (match parseArrItems f (skipWs (' ' :: (dumpVal y ++ (dumpArrTail ys ++ (']' :: rest))))) with
          | some (vs, r₃) => some (x :: vs, r₃)
          | none => none) = some (x :: y :: ys, rest)
        rw [skipWs_cons_of_ws _ (by decide), skipWs_dump_append, ihA y ys rest hys]
    · -- object fields
      intro p ps rest hs
      obtain ⟨k, v⟩ := p
      rw [jsizeO_cons] at hs
      have hv : jsize v ≤ f := by
        have h2 : jsize ((k, v) : String × JVal).2 = jsize v := rfl
        omega
      have hshape : dumpPair (k, v) ++ (dumpObjTail ps ++ ('\x7d' :: rest)) =
          '"' :: (escString k.data ++
            ('"' :: (':' :: ' ' :: (dumpVal v ++ (dumpObjTail ps ++ ('\x7d' :: rest)))))) := by
        show ('"' :: (escString k.data ++ ('"' :: ':' :: ' ' :: dumpVal v))) ++ _ = _
        simp [List.append_assoc]
      rw [parseObjItems_step, hshape]
      show (match parseStrBody (escString k.data ++
          ('"' :: (':' :: ' ' :: (dumpVal v ++ (dumpObjTail ps ++ ('\x7d' :: rest)))))) with
        | none => none
        | some (k₂, r₂) =>
          match skipWs r₂ with
          | [] => none
          | d :: r₃ =>
            if d == ':' then
              match parseVal f (skipWs r₃) with
              | none => none
              | some (v₂, r₄) =>
                match skipWs r₄ with
                | [] => none
                | e :: r₅ =>
                  if e == ',' then
                    match parseObjItems f (skipWs r₅) with
                    | some (kvs, r₆) => some ((String.mk k₂, v₂) :: kvs, r₆)
                    | none => none
                  else if e == '\x7d' then some ([(String.mk k₂, v₂)], r₅)
                  else none
            else none) = some ((k, v) :: ps, rest)
      rw [parseStrBody_esc]
      show (match parseVal f (skipWs (' ' :: (dumpVal v ++ (dumpObjTail ps ++ ('\x7d' :: rest))))) with
        | none => none
        | some (v₂, r₄) =>
          match skipWs r₄ with
          | [] => none
          | e :: r₅ =>
            if e == ',' then
              match parseObjItems f (skipWs r₅) with
              | some (kvs, r₆) => some ((String.mk k.data, v₂) :: kvs, r₆)
              | none => none
            else if e == '\x7d' then some ([(String.mk k.data, v₂)], r₅)
            else none) = some ((k, v) :: ps, rest)
      rw [skipWs_cons_of_ws _ (by decide), skipWs_dump_append,
        ihV v (dumpObjTail ps ++ ('\x7d' :: rest)) hv (noDigitHead_dumpObjTail ps rest)]
      cases ps with
      | nil => rfl
      | cons q qs =>
        have hqs : jsizeO (q :: qs) ≤ f := by omega
        have hshape₂ : dumpObjTail (q :: qs) ++ ('\x7d' :: rest) =
            ',' :: ' ' :: (dumpPair q ++ (dumpObjTail qs ++ ('\x7d' :: rest))) := by
          show (',' :: ' ' :: (dumpPair q ++ dumpObjTail qs)) ++ ('\x7d' :: rest) = _
          simp [List.append_assoc]
        rw [hshape₂]
        show (match parseObjItems f (skipWs (' ' :: (dumpPair q ++ (dumpObjTail qs ++ ('\x7d' :: rest))))) with
          | some (kvs, r₆) => some ((String.mk k.data, v) :: kvs, r₆)
          | none => none) = some ((k, v) :: q :: qs, rest)
        rw [skipWs_cons_of_ws _ (by decide), skipWs_pair_append, ihO q qs rest hqs]

mutual

theorem jsize_le_dumpVal : ∀ v : JVal, jsize v ≤ (dumpVal v).length
  | .jnull => by simp [jsize, dumpVal]
  | .jbool true => by simp [jsize, dumpVal]
  | .jbool false => by simp [jsize, dumpVal]
  | .jint n => by
    cases n with
    | ofNat m =>
      obtain ⟨⟨c, cs, hcons, -⟩, -, -⟩ := natDigits_spec m
      simp [jsize, dumpVal, intDigits, hcons]
    | negSucc m =>
      simp [jsize, dumpVal, intDigits]
  | .jstr s => by simp [jsize, dumpVal]
  | .jarr [] => by simp [jsize, jsizeA, dumpVal]
  | .jarr (x :: xs) => by
    have h1 := jsize_le_dumpVal x
    have h2 := jsizeA_le_dumpArrTail xs
    have h3 : jsize (.jarr (x :: xs)) = 1 + (1 + jsize x + jsizeA xs) := by
      simp [jsize, jsizeA]
    have h4 : (dumpVal (.jarr (x :: xs))).length =
        1 + ((dumpVal x).length + (dumpArrTail xs).length) + 1 := by
      simp [dumpVal]
      omega
    omega
  | .jobj [] => by simp [jsize, jsizeO, dumpVal]
  | .jobj (p :: ps) => by
    have h1 := jsize_le_dumpPair p
    have h2 := jsizeO_le_dumpObjTail ps
    have h3 : jsize (.jobj (p :: ps)) = 1 + (1 + jsize p.2 + jsizeO ps) := by
      simp [jsize, jsizeO]
    have h4 : (dumpVal (.jobj (p :: ps))).length =
        1 + ((dumpPair p).length + (dumpObjTail ps).length) + 1 := by
      simp [dumpVal]
      omega
    omega

theorem jsize_le_dumpPair : ∀ p : String × JVal, jsize p.2 ≤ (dumpPair p).length
  | (k, v) => by
    have h1 := jsize_le_dumpVal v
    have h2 : (dumpPair (k, v)).length =
        1 + ((escString k.data).length + (1 + (1 + (1 + (dumpVal v).length)))) := by
      simp [dumpPair]
      omega
    have h0 : jsize ((k, v) : String × JVal).2 = jsize v := rfl
    omega

theorem jsizeA_le_dumpArrTail : ∀ xs : List JVal, jsizeA xs ≤ (dumpArrTail xs).length
  | [] => by simp [jsizeA, dumpArrTail]
  | x :: xs => by
    have h1 := jsize_le_dumpVal x
    have h2 := jsizeA_le_dumpArrTail xs
    have h3 : jsizeA (x :: xs) = 1 + jsize x + jsizeA xs := jsizeA_cons x xs
    have h4 : (dumpArrTail (x :: xs)).length =
        1 + (1 + ((dumpVal x).length + (dumpArrTail xs).length)) := by
      simp [dumpArrTail]
      omega
    omega

theorem jsizeO_le_dumpObjTail : ∀ ps : List (String × JVal), jsizeO ps ≤ (dumpObjTail ps).length
  | [] => by simp [jsizeO, dumpObjTail]
  | p :: ps => by
    have h1 := jsize_le_dumpPair p
    have h2 := jsizeO_le_dumpObjTail ps
    have h3 : jsizeO (p :: ps) = 1 + jsize p.2 + jsizeO ps := jsizeO_cons p ps
    have h4 : (dumpObjTail (p :: ps)).length =
        1 + (1 + ((dumpPair p).length + (dumpObjTail ps).length)) := by
      simp [dumpObjTail]
      omega
    omega

end

theorem jsonLoads_dump_newline (v : JVal) :
    jsonLoads (jsonDumps v ++ "\n") = some v := by
  have hdata : (jsonDumps v ++ "\n").data = dumpVal v ++ ['\n'] := rfl
  have hlen : (jsonDumps v ++ "\n").length = (dumpVal v).length + 1 := by
    rw [String.length, hdata, List.length_append]
    rfl
  rw [jsonLoads, hdata, hlen, skipWs_dump_append]
  have hparse := (parse_dump_all (2 * ((dumpVal v).length + 1) + 2)).1 v ['\n']
    (by have := jsize_le_dumpVal v; omega) (by decide)
  rw [hparse]
  rfl

/-! ## Lemmas: dispatcher behavior -/

theorem intercalate_go_length (s : String) :
    ∀ (ms : List String) (a : String), a.length ≤ (String.intercalate.go a s ms).length := by
  intro ms
  induction ms with
  | nil =>
    intro a
    simp [String.intercalate.go]
  | cons b bs ih =>
    intro a
    have h1 := ih (a ++ s ++ b)
    have h2 : (a ++ s ++ b).length = a.length + s.length + b.length := by
      simp [String.length_append]
    simp only [String.intercalate.go]
    omega

theorem length_pos_of_ne_empty {s : String} (h : s ≠ "") : 0 < s.length := by
  rcases s with ⟨cs⟩
  cases cs with
  | nil => exact absurd rfl h
  | cons c cs => simp [String.length]

theorem ne_empty_of_length_pos {s : String} (h : 0 < s.length) : s ≠ "" := by
  intro he
  rw [he] at h
  simp [String.length] at h

theorem intercalate_ne_empty (m : String) (ms : List String) (hm : m ≠ "") :
    String.intercalate "; " (m :: ms) ≠ "" := by
  have h1 : String.intercalate "; " (m :: ms) = String.intercalate.go m "; " ms := rfl
  have h2 := intercalate_go_length "; " ms m
  have h3 : 0 < (String.intercalate.go m "; " ms).length := by
    have := length_pos_of_ne_empty hm
    omega
  rw [h1]
  exact ne_empty_of_length_pos h3

theorem errorMsg_ne_empty (e err : JVal) : pyStr e ++ ": error " ++ pyStr err ≠ "" := by
  refine ne_empty_of_length_pos ?_
  have h2 : (pyStr e ++ ": error " ++ pyStr err).length =
      (pyStr e).length + (": error " : String).length + (pyStr err).length := by
    simp [String.length_append]
  have h3 : (": error " : String).length = 8 := rfl
  omega

theorem expectedMsg_ne_empty (e exp v : JVal) :
    pyStr e ++ ": expected " ++ pyRepr exp ++ ", got " ++ pyRepr v ≠ "" := by
  refine ne_empty_of_length_pos ?_
  have h2 : (pyStr e ++ ": expected " ++ pyRepr exp ++ ", got " ++ pyRepr v).length =
      ((pyStr e).length + (": expected " : String).length + (pyRepr exp).length)
        + (", got " : String).length + (pyRepr v).length := by
    simp [String.length_append]
  have h3 : (": expected " : String).length = 11 := rfl
  omega

theorem intDigits_ne_nil (n : Int) : intDigits n ≠ [] := by
  cases n with
  | ofNat m =>
    obtain ⟨⟨c, cs, hcons, -⟩, -, -⟩ := natDigits_spec m
    rw [intDigits, hcons]
    simp
  | negSucc m =>
    rw [intDigits]
    simp

theorem pyStr_truthy_ne (v : JVal) (h : pyTruthyV v = true) : pyStr v ≠ "" := by
  cases v with
  | jnull => simp [pyTruthyV] at h
  | jbool b =>
    rw [pyTruthyV] at h
    rw [h]
    intro he
    exact absurd he (by decide)
  | jint n =>
    have hne := intDigits_ne_nil n
    rcases he : intDigits n with _ | ⟨c, cs⟩
    · exact absurd he hne
    · show pyRepr (.jint n) ≠ ""
      rw [pyRepr, he]
      refine ne_empty_of_length_pos ?_
      simp [String.length]
  | jstr s =>
    rw [pyTruthyV] at h
    rw [pyStr]
    intro he
    rw [he] at h
    simp at h
  | jarr xs =>
    show "[" ++ pyReprItems xs ++ "]" ≠ ""
    refine ne_empty_of_length_pos ?_
    have hl : ("[" ++ pyReprItems xs ++ "]").length =
        ("[" : String).length + (pyReprItems xs).length + ("]" : String).length := by
      simp [String.length_append]
    have h1 : ("[" : String).length = 1 := rfl
    omega
  | jobj ps =>
    show "\x7b" ++ pyReprFields ps ++ "\x7d" ≠ ""
    refine ne_empty_of_length_pos ?_
    have hl : ("\x7b" ++ pyReprFields ps ++ "\x7d").length =
        ("\x7b" : String).length + (pyReprFields ps).length + ("\x7d" : String).length := by
      simp [String.length_append]
    have h1 : ("\x7b" : String).length = 1 := rfl
    omega

theorem jgetFields_jsetFields_ne :
    ∀ (fs : List (String × JVal)) (k : String) (x : JVal) (k₂ : String), k ≠ k₂ →
      jgetFields (jsetFields fs k x) k₂ = jgetFields fs k₂
  | [], k, x, k₂, hne => by
    simp [jsetFields, jgetFields, beq_eq_false_iff_ne.mpr hne]
  | (k₀, v₀) :: rest, k, x, k₂, hne => by
    by_cases h0 : k₀ = k
    · subst h0
      have hk2 : (k₀ == k₂) = false := beq_eq_false_iff_ne.mpr hne
      simp [jsetFields, jgetFields, hk2]
    · have hk : (k₀ == k) = false := beq_eq_false_iff_ne.mpr h0
      by_cases h2 : k₀ = k₂
      · subst h2
        simp [jsetFields, jgetFields, hk]
      · have hk2 : (k₀ == k₂) = false := beq_eq_false_iff_ne.mpr h2
        simp [jsetFields, jgetFields, hk, hk2,
          jgetFields_jsetFields_ne rest k x k₂ hne]

theorem harnessChecks_snd (ev : String → Except String JVal) :
    ∀ (checks : List CheckSpec) (b b' : Bool),
      (harnessChecks ev checks b).2 = (harnessChecks ev checks b').2
  | [], b, b' => rfl
  | c :: rest, b, b' => by
    cases hev : ev c.expr with
    | ok v =>
      simp only [harnessChecks, hev]
      rw [harnessChecks_snd ev rest (if pyEq v c.equals then b else false)
        (if pyEq v c.equals then b' else false)]
    | error m =>
      simp only [harnessChecks, hev]

theorem harnessChecks_fst (ev : String → Except String JVal) :
    ∀ (checks : List CheckSpec) (b : Bool),
      (harnessChecks ev checks b).1 = (b && (harnessChecks ev checks b).2.all entryPass)
  | [], b => by simp [harnessChecks]
  | c :: rest, b => by
    cases hev : ev c.expr with
    | ok v =>
      simp only [harnessChecks, hev, List.all_cons, entryPass]
      rw [harnessChecks_fst ev rest (if pyEq v c.equals then b else false)]
      have hsnd := harnessChecks_snd ev rest (if pyEq v c.equals then b else false) b
      rw [hsnd]
      cases hpq : pyEq v c.equals <;> simp_all
    | error m =>
      simp only [harnessChecks, hev, List.all_cons, entryPass]
      rw [harnessChecks_fst ev rest false]
      simp

theorem harnessChecks_length (ev : String → Except String JVal) :
    ∀ (checks : List CheckSpec) (b : Bool),
      (harnessChecks ev checks b).2.length = checks.length
  | [], b => rfl
  | c :: rest, b => by
    cases hev : ev c.expr with
    | ok v =>
      simp only [harnessChecks, hev, List.length_cons]
      rw [harnessChecks_length ev rest]
    | error m =>
      simp only [harnessChecks, hev, List.length_cons]
      rw [harnessChecks_length ev rest]

theorem harnessChecks_get? (ev : String → Except String JVal) :
    ∀ (checks : List CheckSpec) (b : Bool) (i : Nat) (c : CheckSpec),
      checks.get? i = some c →
      (harnessChecks ev checks b).2.get? i =
        some (match ev c.expr with
              | .ok v => .valueEntry c.expr v c.equals (pyEq v c.equals)
              | .error m => .errorEntry c.expr m false)
  | [], b, i, c, h => by simp at h
  | c₀ :: rest, b, i, c, h => by
    cases i with
    | zero =>
      simp only [List.get?] at h
      injection h with h
      subst h
      cases hev : ev c₀.expr with
      | ok v => simp [harnessChecks, hev]
      | error m => simp [harnessChecks, hev]
    | succ i =>
      simp only [List.get?] at h
      cases hev : ev c₀.expr with
      | ok v =>
        simp only [harnessChecks, hev, List.get?]
        exact harnessChecks_get? ev rest _ i c h
      | error m =>
        simp only [harnessChecks, hev, List.get?]
        exact harnessChecks_get? ev rest _ i c h

theorem evalGrade_ext (f₁ f₂ : List (String × JVal))
    (hok : jgetFields f₁ "ok" = jgetFields f₂ "ok")
    (hres : jgetFields f₁ "results" = jgetFields f₂ "results")
    (herr : jgetFields f₁ "error" = jgetFields f₂ "error") :
    ((evalGrade (.jobj f₁)).map (·.passed) = (evalGrade (.jobj f₂)).map (·.passed)) ∧
    ((evalGrade (.jobj f₁)).map (·.feedback) = (evalGrade (.jobj f₂)).map (·.feedback)) := by
  have hok' : jget (.jobj f₁) "ok" = jget (.jobj f₂) "ok" := hok
  have hres' : jget (.jobj f₁) "results" = jget (.jobj f₂) "results" := hres
  have herr' : jget (.jobj f₁) "error" = jget (.jobj f₂) "error" := herr
  refine ⟨?_, ?_⟩ <;>
  · simp only [evalGrade, hok', hres', herr']
    by_cases ht : pyTruthy (jget (.jobj f₂) "ok")
    · simp [ht, Except.map]
    · simp only [ht, Bool.false_eq_true, if_false]
      cases hri : resultsIter ((jget (.jobj f₂) "results").getD (.jarr [])) with
      | error e => simp [hri, Except.map]
      | ok rs =>
        cases hm : msgsOf rs with
        | error e => simp [hri, hm, Except.map]
        | ok msgs => simp [hri, hm, Except.map]

theorem evalGrade_passed (res : JVal) (gr : EvaluateResult) (h : evalGrade res = .ok gr) :
    gr.passed = pyTruthy (jget res "ok") := by
  cases res with
  | jobj fs =>
    by_cases ht : pyTruthy (jget (.jobj fs) "ok")
    · rw [ht]
      simp only [evalGrade, ht, if_true] at h
      injection h with h
      rw [← h]
    · rw [Bool.not_eq_true] at ht
      rw [ht]
      simp only [evalGrade, ht, Bool.false_eq_true, if_false] at h
      split at h
      · exact absurd h (by simp)
      · split at h
        · exact absurd h (by simp)
        · injection h with h
          rw [← h]
  | jnull => exact absurd h (by simp [evalGrade])
  | jbool b => exact absurd h (by simp [evalGrade])
  | jint n => exact absurd h (by simp [evalGrade])
  | jstr s => exact absurd h (by simp [evalGrade])
  | jarr xs => exact absurd h (by simp [evalGrade])

theorem evaluate_stdout_route (R : Runners) (chapters : List Chapter)
    (cid eid code : String) (ex : Exercise) (expected : String) (out : ExecutionResult)
    (hfind : find_exercise chapters cid eid = some ex)
    (hts : ex.tests = .stdoutSpec expected)
    (hrun : R.runPlain code "" = .ok out) :
    evaluate R chapters cid eid code = (chapters, .gradeOutcome (gradeStdout expected out)) := by
  simp only [evaluate, hfind, hts, hrun]

theorem evaluate_preset_route (R : Runners) (chapters : List Chapter)
    (cid eid code : String) (ex : Exercise) (preset expected : String) (out : ExecutionResult)
    (hfind : find_exercise chapters cid eid = some ex)
    (hts : ex.tests = .stdoutWithPreset preset expected)
    (hrun : R.runPlain code preset = .ok out) :
    evaluate R chapters cid eid code =
      (chapters, .gradeOutcome (gradeStdoutPreset expected out)) := by
  simp only [evaluate, hfind, hts, hrun]

theorem evaluate_eval_route (R : Runners) (chapters : List Chapter)
    (cid eid code : String) (ex : Exercise) (checks : List CheckSpec)
    (out : ExecutionResult) (gr : EvaluateResult)
    (hfind : find_exercise chapters cid eid = some ex)
    (hts : ex.tests = .evalSpec checks)
    (hrun : R.runEvalHarness code checks = .ok out)
    (hpipe : evalPipeline out = .ok gr) :
    evaluate R chapters cid eid code = (chapters, .gradeOutcome gr) := by
  simp only [evaluate, hfind, hts, hrun, hpipe]

theorem post_parse_failure (out : ExecutionResult) (hne : out.stdout ≠ "")
    (hbad : jsonLoads out.stdout = none) :
    run_user_code_and_eval_post out = some (.jobj
      [("ok", .jbool false),
       ("error", .jstr (if out.stderr == "" then "Invalid output" else out.stderr)),
       ("stderr", .jstr out.stderr),
       ("returncode", .jint out.returncode)]) := by
  have hbeq : (out.stdout == "") = false := beq_eq_false_iff_ne.mpr hne
  unfold run_user_code_and_eval_post
  simp only [hbeq, Bool.false_eq_true, if_false, hbad]
  rfl

theorem post_empty_stdout (rc : Int) (se : String) :
    run_user_code_and_eval_post ⟨rc, "", se⟩ =
      some (.jobj [("stderr", .jstr se), ("returncode", .jint rc)]) := rfl

theorem pipeline_empty_stdout (rc : Int) (se : String) :
    evalPipeline ⟨rc, "", se⟩ =
      .ok { passed := false, feedback := "Some tests failed.",
            details := .payloadDetails
              (.jobj [("stderr", .jstr se), ("returncode", .jint rc)]) } := rfl

theorem evalGrade_errorObj (E se : String) (rc : Int) (hE : (E == "") = false) :
    evalGrade (.jobj [("ok", .jbool false), ("error", .jstr E),
        ("stderr", .jstr se), ("returncode", .jint rc)]) =
      .ok { passed := false, feedback := E,
            details := .payloadDetails (.jobj [("ok", .jbool false), ("error", .jstr E),
              ("stderr", .jstr se), ("returncode", .jint rc)]) } := by
  rcases E with ⟨_ | ⟨c, cs⟩⟩
  · exact absurd hE (by decide)
  · rfl

theorem pipeline_parse_failure (out : ExecutionResult) (hne : out.stdout ≠ "")
    (hbad : jsonLoads out.stdout = none) :
    evalPipeline out =
      .ok { passed := false,
            feedback := if out.stderr == "" then "Invalid output" else out.stderr,
            details := .payloadDetails (.jobj [("ok", .jbool false),
              ("error", .jstr (if out.stderr == "" then "Invalid output" else out.stderr)),
              ("stderr", .jstr out.stderr),
              ("returncode", .jint out.returncode)]) } := by
  unfold evalPipeline
  rw [post_parse_failure out hne hbad]
  by_cases hse : out.stderr = ""
  · rw [hse]
    exact evalGrade_errorObj "Invalid output" "" out.returncode (by decide)
  · have hsf : (out.stderr == "") = false := beq_eq_false_iff_ne.mpr hse
    simp only [hsf, Bool.false_eq_true, if_false]
    exact evalGrade_errorObj out.stderr out.stderr out.returncode hsf

theorem checkMsg_some_ne (r : JVal) (m : String) (h : checkMsg r = .ok (some m)) : m ≠ "" := by
  cases r with
  | jobj fs =>
    by_cases hp : pyTruthy (jget (.jobj fs) "pass")
    · simp [checkMsg, hp] at h
    · simp only [checkMsg, hp, Bool.false_eq_true, if_false] at h
      by_cases he : jhasKey (.jobj fs) "error"
      · simp only [he, if_true] at h
        split at h
        · injection h with h
          injection h with h
          rw [← h]
          exact errorMsg_ne_empty _ _
        · exact absurd h (by simp)
      · simp only [he, Bool.false_eq_true, if_false] at h
        split at h
        · injection h with h
          injection h with h
          rw [← h]
          exact expectedMsg_ne_empty _ _ _
        · exact absurd h (by simp)
  | jnull => exact absurd h (by simp [checkMsg])
  | jbool b => exact absurd h (by simp [checkMsg])
  | jint n => exact absurd h (by simp [checkMsg])
  | jstr s => exact absurd h (by simp [checkMsg])
  | jarr xs => exact absurd h (by simp [checkMsg])

theorem msgsOf_mem_ne : ∀ (rs : List JVal) (msgs : List String), msgsOf rs = .ok msgs →
    ∀ m ∈ msgs, m ≠ ""
  | [], msgs, h => by
    simp only [msgsOf] at h
    injection h with h
    rw [← h]
    intro m hm
    simp at hm
  | r :: rest, msgs, h => by
    simp only [msgsOf] at h
    cases hc : checkMsg r with
    | error e => rw [hc] at h; exact absurd h (by simp)
    | ok o =>
      rw [hc] at h
      cases o with
      | none =>
        exact msgsOf_mem_ne rest msgs h
      | some m₀ =>
        cases hrest : msgsOf rest with
        | error e => rw [hrest] at h; exact absurd h (by simp)
        | ok ms =>
          rw [hrest] at h
          injection h with h
          rw [← h]
          intro m hm
          rcases List.mem_cons.mp hm with hm | hm
          · rw [hm]
            exact checkMsg_some_ne r m₀ hc
          · exact msgsOf_mem_ne rest ms hrest m hm

theorem evalPipeline_rc_indep (so se : String) (rc rc' : Int) :
    ((evalPipeline ⟨rc, so, se⟩).map (fun r => r.passed) =
      (evalPipeline ⟨rc', so, se⟩).map (fun r => r.passed)) ∧
    ((evalPipeline ⟨rc, so, se⟩).map (fun r => r.feedback) =
      (evalPipeline ⟨rc', so, se⟩).map (fun r => r.feedback)) := by
  have key : ∀ (d : JVal) (rc₀ rc₁ : Int),
      (((match (jset d "stderr" (.jstr se)).bind
            (fun d₂ => jset d₂ "returncode" (.jint rc₀)) with
         | none => (.error () : Except Unit EvaluateResult)
         | some res => evalGrade res).map (fun r : EvaluateResult => r.passed)) =
       ((match (jset d "stderr" (.jstr se)).bind
            (fun d₂ => jset d₂ "returncode" (.jint rc₁)) with
         | none => (.error () : Except Unit EvaluateResult)
         | some res => evalGrade res).map (fun r : EvaluateResult => r.passed))) ∧
      (((match (jset d "stderr" (.jstr se)).bind
            (fun d₂ => jset d₂ "returncode" (.jint rc₀)) with
         | none => (.error () : Except Unit EvaluateResult)
         | some res => evalGrade res).map (fun r : EvaluateResult => r.feedback)) =
       ((match (jset d "stderr" (.jstr se)).bind
            (fun d₂ => jset d₂ "returncode" (.jint rc₁)) with
         | none => (.error () : Except Unit EvaluateResult)
         | some res => evalGrade res).map (fun r : EvaluateResult => r.feedback))) := by
    intro d rc₀ rc₁
    cases d with
    | jobj fs =>
      show ((evalGrade (.jobj (jsetFields (jsetFields fs "stderr" (.jstr se))
          "returncode" (.jint rc₀)))).map (fun r : EvaluateResult => r.passed) =
        (evalGrade (.jobj (jsetFields (jsetFields fs "stderr" (.jstr se))
          "returncode" (.jint rc₁)))).map (fun r : EvaluateResult => r.passed)) ∧
        ((evalGrade (.jobj (jsetFields (jsetFields fs "stderr" (.jstr se))
          "returncode" (.jint rc₀)))).map (fun r : EvaluateResult => r.feedback) =
        (evalGrade (.jobj (jsetFields (jsetFields fs "stderr" (.jstr se))
          "returncode" (.jint rc₁)))).map (fun r : EvaluateResult => r.feedback))
      refine evalGrade_ext _ _ ?_ ?_ ?_ <;>
      · rw [jgetFields_jsetFields_ne _ _ _ _ (by decide),
          jgetFields_jsetFields_ne _ _ _ _ (by decide),
          jgetFields_jsetFields_ne _ _ _ _ (by decide),
          jgetFields_jsetFields_ne _ _ _ _ (by decide)]
    | jnull => exact ⟨rfl, rfl⟩
    | jbool b => exact ⟨rfl, rfl⟩
    | jint n => exact ⟨rfl, rfl⟩
    | jstr s => exact ⟨rfl, rfl⟩
    | jarr xs => exact ⟨rfl, rfl⟩
  exact key (match jsonLoads (if so == "" then "\x7b\x7d" else so) with
             | some d => d
             | none => .jobj [("ok", .jbool false),
                 ("error", .jstr (if se == "" then "Invalid output" else se))]) rc rc'

theorem gradeStdout_feedback_ne (expected : String) (out : ExecutionResult)
    (h : (gradeStdout expected out).passed = false) :
    (gradeStdout expected out).feedback ≠ "" := by
  have hcond : (out.returncode == 0 && out.stdout == expected) = false := h
  have hfe : (gradeStdout expected out).feedback =
      "Expected output: " ++ pyReprString expected ++ ", but got: "
        ++ pyReprString out.stdout ++ ". "
        ++ (if out.stderr == "" then "" else "Error: " ++ out.stderr) := by
    simp only [gradeStdout, hcond, Bool.false_eq_true, if_false]
  rw [hfe]
  refine ne_empty_of_length_pos ?_
  have hl : ("Expected output: " ++ pyReprString expected ++ ", but got: "
      ++ pyReprString out.stdout ++ ". "
      ++ (if out.stderr == "" then "" else "Error: " ++ out.stderr)).length =
      ("Expected output: " : String).length + (pyReprString expected).length
        + (", but got: " : String).length + (pyReprString out.stdout).length
        + (". " : String).length
        + (if out.stderr == "" then ("" : String) else "Error: " ++ out.stderr).length := by
    simp [String.length_append]
  have h17 : ("Expected output: " : String).length = 17 := rfl
  omega

theorem gradeStdoutPreset_feedback_ne (expected : String) (out : ExecutionResult)
    (h : (gradeStdoutPreset expected out).passed = false) :
    (gradeStdoutPreset expected out).feedback ≠ "" := by
  have hcond : (out.returncode == 0 && out.stdout == expected) = false := h
  have hfe : (gradeStdoutPreset expected out).feedback =
      "Expected output: " ++ pyReprString expected ++ ", but got: "
        ++ pyReprString out.stdout ++ ". "
        ++ (if out.stderr == "" then "" else "Error: " ++ out.stderr) := by
    simp only [gradeStdoutPreset, hcond, Bool.false_eq_true, if_false]
  rw [hfe]
  refine ne_empty_of_length_pos ?_
  have hl : ("Expected output: " ++ pyReprString expected ++ ", but got: "
      ++ pyReprString out.stdout ++ ". "
      ++ (if out.stderr == "" then "" else "Error: " ++ out.stderr)).length =
      ("Expected output: " : String).length + (pyReprString expected).length
        + (", but got: " : String).length + (pyReprString out.stdout).length
        + (". " : String).length
        + (if out.stderr == "" then ("" : String) else "Error: " ++ out.stderr).length := by
    simp [String.length_append]
  have h17 : ("Expected output: " : String).length = 17 := rfl
  omega

theorem evalGrade_failing_feedback_ne (res : JVal) (gr : EvaluateResult)
    (h : evalGrade res = .ok gr) (hp : gr.passed = false) : gr.feedback ≠ "" := by
  cases res with
  | jobj fs =>
    by_cases ht : pyTruthy (jget (.jobj fs) "ok")
    · simp only [evalGrade, ht, if_true] at h
      injection h with h
      rw [← h] at hp
      exact absurd hp (by simp)
    · simp only [evalGrade, ht, Bool.false_eq_true, if_false] at h
      split at h
      · exact absurd h (by simp)
      · split at h
        · exact absurd h (by simp)
        · rename_i msgs hm
          injection h with h
          rw [← h]
          by_cases hcond : (msgs.isEmpty && pyTruthy (jget (.jobj fs) "error")) = true
          · have herr : pyTruthy (jget (.jobj fs) "error") = true := by
              cases hb : pyTruthy (jget (.jobj fs) "error") with
              | true => rfl
              | false => rw [hb, Bool.and_false] at hcond; exact absurd hcond (by decide)
            show (if (if (msgs.isEmpty && pyTruthy (jget (.jobj fs) "error")) = true
                  then [pyStr ((jget (.jobj fs) "error").getD .jnull)]
                  else msgs).isEmpty = true
              then "Some tests failed."
              else String.intercalate "; "
                (if (msgs.isEmpty && pyTruthy (jget (.jobj fs) "error")) = true
                  then [pyStr ((jget (.jobj fs) "error").getD .jnull)]
                  else msgs)) ≠ ""
            simp only [hcond, if_true]
            have hie : ([pyStr ((jget (.jobj fs) "error").getD .jnull)] :
                List String).isEmpty = false := rfl
            simp only [hie, Bool.false_eq_true, if_false]
            have hi : String.intercalate "; " [pyStr ((jget (.jobj fs) "error").getD .jnull)]
                = pyStr ((jget (.jobj fs) "error").getD .jnull) := rfl
            rw [hi]
            cases hj : jget (.jobj fs) "error" with
            | none => rw [hj] at herr; exact absurd herr (by simp [pyTruthy])
            | some e =>
              have hev : pyTruthyV e = true := by rw [hj] at herr; exact herr
              show pyStr ((some e).getD .jnull) ≠ ""
              exact pyStr_truthy_ne e hev
          · have hcf : (msgs.isEmpty && pyTruthy (jget (.jobj fs) "error")) = false :=
              Bool.not_eq_true _ ▸ eq_false_of_ne_true hcond
            show (if (if (msgs.isEmpty && pyTruthy (jget (.jobj fs) "error")) = true
                  then [pyStr ((jget (.jobj fs) "error").getD .jnull)]
                  else msgs).isEmpty = true
              then "Some tests failed."
              else String.intercalate "; "
                (if (msgs.isEmpty && pyTruthy (jget (.jobj fs) "error")) = true
                  then [pyStr ((jget (.jobj fs) "error").getD .jnull)]
                  else msgs)) ≠ ""
            simp only [hcf, Bool.false_eq_true, if_false]
            cases msgs with
            | nil => decide
            | cons m ms =>
              have hie : ((m :: ms) : List String).isEmpty = false := rfl
              simp only [hie, Bool.false_eq_true, if_false]
              exact intercalate_ne_empty m ms
                (msgsOf_mem_ne _ (m :: ms) hm m (List.mem_cons_self m ms))
  | jnull => exact absurd h (by simp [evalGrade])
  | jbool b => exact absurd h (by simp [evalGrade])
  | jint n => exact absurd h (by simp [evalGrade])
  | jstr s => exact absurd h (by simp [evalGrade])
  | jarr xs => exact absurd h (by simp [evalGrade])

/-! ## Claim theorems -/

/-- Claim C1, counterexample: a candidate that writes the stray line `hi`
to stdout before the harness prints its structured line makes the whole
stdout unparseable, so the Dispatcher does not recover the payload the
harness emitted (which had `ok=true`): the run is graded failed instead.
This refutes the claim that stray diagnostic output never corrupts
parsing of the trusted line. -/
theorem C1_counterexample :
    runHarness ⟨.ok (), fun _ => .ok .jnull, "hi\n"⟩ [] = .resultsPayload true [] ∧
    jsonLoads (harnessStdout ⟨.ok (), fun _ => .ok .jnull, "hi\n"⟩ []) = none ∧
    (evalPipeline ⟨0, harnessStdout ⟨.ok (), fun _ => .ok .jnull, "hi\n"⟩ [], ""⟩).map
      (fun r => r.passed) = .ok false :=
  ⟨rfl, rfl, rfl⟩

/-- Claim C1, amended: the Dispatcher parses the harness's structured
payload line exactly when the candidate code wrote no stray output to
stdout; in that case the parsed document is the payload the harness
emitted, for every load outcome, evaluation oracle and check list. -/
theorem C1_clean_stdout_parses (m : CandidateExec) (checks : List CheckSpec)
    (hstray : m.stray = "") :
    jsonLoads (harnessStdout m checks) = some (payloadToJson (runHarness m checks)) := by
  obtain ⟨l, ev, st⟩ := m
  simp only at hstray
  subst hstray
  show jsonLoads ("" ++ jsonDumps (payloadToJson (runHarness ⟨l, ev, ""⟩ checks)) ++ "\n") = _
  exact jsonLoads_dump_newline (payloadToJson (runHarness ⟨l, ev, ""⟩ checks))

/-- Claim C1 witness: the amended theorem applied to a concrete loaded
candidate with one passing check and no stray output. -/
theorem C1_clean_stdout_parses_witness :
    jsonLoads (harnessStdout ⟨.ok (), fun _ => .ok (.jint 5), ""⟩ [⟨"add(2, 3)", .jint 5⟩]) =
      some (payloadToJson (runHarness ⟨.ok (), fun _ => .ok (.jint 5), ""⟩
        [⟨"add(2, 3)", .jint 5⟩])) :=
  C1_clean_stdout_parses ⟨.ok (), fun _ => .ok (.jint 5), ""⟩ [⟨"add(2, 3)", .jint 5⟩] rfl

/-- Claim C2: for Stdout and StdoutWithPreset grading, the verdict is
passed iff the exit status is zero and the captured stdout equals the
expected string exactly; the dispatcher routes those test types to
exactly this comparison; and an output lacking the trailing newline
fails an expectation that has one. -/
theorem C2_stdout_exact :
    (∀ (expected : String) (out : ExecutionResult),
      ((gradeStdout expected out).passed = true ↔
        out.returncode = 0 ∧ out.stdout = expected) ∧
      ((gradeStdoutPreset expected out).passed = true ↔
        out.returncode = 0 ∧ out.stdout = expected)) ∧
    (∀ (R : Runners) (chapters : List Chapter) (cid eid code : String) (ex : Exercise)
       (expected : String) (out : ExecutionResult),
      find_exercise chapters cid eid = some ex → ex.tests = .stdoutSpec expected →
      R.runPlain code "" = .ok out →
      evaluate R chapters cid eid code =
        (chapters, .gradeOutcome (gradeStdout expected out))) ∧
    (∀ (R : Runners) (chapters : List Chapter) (cid eid code : String) (ex : Exercise)
       (preset expected : String) (out : ExecutionResult),
      find_exercise chapters cid eid = some ex →
      ex.tests = .stdoutWithPreset preset expected →
      R.runPlain code preset = .ok out →
      evaluate R chapters cid eid code =
        (chapters, .gradeOutcome (gradeStdoutPreset expected out))) ∧
    (gradeStdout "Hello, World!\n" ⟨0, "Hello, World!", ""⟩).passed = false := by
  refine ⟨?_, evaluate_stdout_route, evaluate_preset_route, rfl⟩
  intro expected out
  constructor <;>
  · constructor
    · intro h
      have h2 : (out.returncode == 0 && out.stdout == expected) = true := h
      have h3 : (out.returncode == 0) = true := by
        cases hb : (out.returncode == 0) with
        | true => rfl
        | false => rw [hb, Bool.false_and] at h2; exact absurd h2 (by decide)
      have h4 : (out.stdout == expected) = true := by
        cases hb : (out.stdout == expected) with
        | true => rfl
        | false => rw [hb, Bool.and_false] at h2; exact absurd h2 (by decide)
      exact ⟨beq_iff_eq.mp h3, beq_iff_eq.mp h4⟩
    · intro ⟨h3, h4⟩
      show (out.returncode == 0 && out.stdout == expected) = true
      rw [h3, h4]
      simp

/-- Claim C2 witness: the routing conjunct applied to the catalog's
`print-hello` exercise with a Runner that returns the exact expected
output and exit status zero. -/
theorem C2_stdout_exact_witness :
    evaluate ⟨fun _ _ => .ok ⟨0, "Hello, World!\n", ""⟩, fun _ _ => .ok ⟨0, "", ""⟩⟩
      CHAPTERS "basics" "print-hello" "print(\x27Hello, World!\x27)" =
      (CHAPTERS, .gradeOutcome (gradeStdout "Hello, World!\n" ⟨0, "Hello, World!\n", ""⟩)) :=
  C2_stdout_exact.2.1 ⟨fun _ _ => .ok ⟨0, "Hello, World!\n", ""⟩, fun _ _ => .ok ⟨0, "", ""⟩⟩
    CHAPTERS "basics" "print-hello" "print(\x27Hello, World!\x27)"
    { id := "print-hello", title := "Print Hello World",
      prompt := "Write code that prints exactly: Hello, World!",
      starter_code := "# Write a print statement below\n",
      tests := .stdoutSpec "Hello, World!\n" }
    "Hello, World!\n" ⟨0, "Hello, World!\n", ""⟩ rfl rfl rfl

/-- Claim C3: in the harness, each check contributes exactly one result
entry determined by evaluating that check's expression alone — an
evaluation error yields an error entry with pass=false and does not
stop the loop — the final ok is the conjunction of all entries' pass
fields, and a candidate that fails to load yields the
`ok=false, results=[]` payload with no check attempted. -/
theorem C3_check_isolation :
    (∀ (ev : String → Except String JVal) (checks : List CheckSpec),
      (harnessChecks ev checks true).2.length = checks.length ∧
      (harnessChecks ev checks true).1 = (harnessChecks ev checks true).2.all entryPass ∧
      (∀ (i : Nat) (c : CheckSpec), checks.get? i = some c →
        (harnessChecks ev checks true).2.get? i =
          some (match ev c.expr with
                | .ok v => .valueEntry c.expr v c.equals (pyEq v c.equals)
                | .error m => .errorEntry c.expr m false))) ∧
    (∀ (m : CandidateExec) (checks : List CheckSpec) (msg : String),
      m.load = .error msg →
      runHarness m checks = .loadFailPayload msg ∧
      payloadToJson (runHarness m checks) =
        .jobj [("ok", .jbool false), ("error", .jstr msg), ("results", .jarr [])]) ∧
    (∀ (m : CandidateExec) (checks : List CheckSpec), m.load = .ok () →
      runHarness m checks = .resultsPayload (harnessChecks m.evalExpr checks true).1
        (harnessChecks m.evalExpr checks true).2) := by
  refine ⟨?_, ?_, ?_⟩
  · intro ev checks
    refine ⟨harnessChecks_length ev checks true, ?_, ?_⟩
    · have h := harnessChecks_fst ev checks true
      rw [h, Bool.true_and]
    · intro i c hc
      exact harnessChecks_get? ev checks true i c hc
  · intro m checks msg hload
    constructor
    · simp only [runHarness, hload]
    · simp only [runHarness, hload, payloadToJson]
  · intro m checks hload
    simp only [runHarness, hload]

/-- Claim C3 witness: a three-check run whose middle check raises; the
middle entry is the error entry, its siblings are value entries, and ok
is false. -/
theorem C3_check_isolation_witness :
    (harnessChecks
      (fun e => if e == "add(2, 3)" then .ok (.jint 5)
                else if e == "add(-1, 1)" then .error "boom"
                else .ok (.jint 14))
      [⟨"add(2, 3)", .jint 5⟩, ⟨"add(-1, 1)", .jint 0⟩, ⟨"add(10, 5)", .jint 15⟩]
      true).2.get? 1 = some (.errorEntry "add(-1, 1)" "boom" false) := by
  have h := (C3_check_isolation.1
    (fun e => if e == "add(2, 3)" then .ok (.jint 5)
              else if e == "add(-1, 1)" then .error "boom"
              else .ok (.jint 14))
    [⟨"add(2, 3)", .jint 5⟩, ⟨"add(-1, 1)", .jint 0⟩, ⟨"add(10, 5)", .jint 15⟩]).2.2
    1 ⟨"add(-1, 1)", .jint 0⟩ rfl
  exact h

/-- Claim C4: the Runner converts a wall-clock timeout into the
returned sentinel result — distinguished non-zero status 124, empty
stdout, explanatory stderr — rather than letting the exception
propagate, whatever happens to the temporary file in the `finally`. -/
theorem C4_timeout_sentinel :
    (∀ rm : Bool, (run_user_code_capture_stdout (.proc .timedOut rm)).result =
      .ok ⟨124, "", "Execution timed out"⟩) ∧
    (124 : Int) ≠ 0 ∧ ("Execution timed out" : String) ≠ "" :=
  ⟨fun _ => rfl, by decide, by decide⟩

/-- Claim C7, refuted by the code: the `with` block that creates and
writes the temporary file precedes the `try/finally`, so when
`tmp.write` (or the `with`-exit close) raises, the already-created
file is never removed — it outlives the Runner call while the
exception propagates; likewise a failing `os.remove` is swallowed with
the file left behind.  Cleanup does hold on every path that reaches
the `try` whenever the removal itself succeeds, and a creation failure
leaves nothing on disk. -/
theorem C7_temp_leak_on_write_failure :
    (run_user_code_capture_stdout
        (.tempWriteFail "No space left on device")).tempRemains = true ∧
    (run_user_code_capture_stdout
        (.tempWriteFail "No space left on device")).result =
      .error "No space left on device" ∧
    (∀ o : ProcOutcome,
      (run_user_code_capture_stdout (.proc o false)).tempRemains = true) ∧
    (∀ o : ProcOutcome,
      (run_user_code_capture_stdout (.proc o true)).tempRemains = false) ∧
    (run_user_code_capture_stdout (.tempCreateFail "boom")).tempRemains = false :=
  ⟨rfl, rfl, fun o => by cases o <;> rfl, fun o => by cases o <;> rfl, rfl⟩

/-- Claim C8: one `evaluate` call leaves the exercise catalog exactly
as it found it, whatever the lookup result, test type and runner
outcomes. -/
theorem C8_catalog_frame (R : Runners) (chapters : List Chapter)
    (chapterId exerciseId code : String) :
    (evaluate R chapters chapterId exerciseId code).1 = chapters := by
  cases hf : find_exercise chapters chapterId exerciseId with
  | none => simp [evaluate, hf]
  | some ex =>
    cases hts : ex.tests with
    | stdoutSpec e =>
      cases hr : R.runPlain code "" with
      | error m => simp [evaluate, hf, hts, hr]
      | ok out => simp [evaluate, hf, hts, hr]
    | stdoutWithPreset p e =>
      cases hr : R.runPlain code p with
      | error m => simp [evaluate, hf, hts, hr]
      | ok out => simp [evaluate, hf, hts, hr]
    | evalSpec cks =>
      cases hr : R.runEvalHarness code cks with
      | error m => simp [evaluate, hf, hts, hr]
      | ok out =>
        cases hp : evalPipeline out with
        | error e => simp [evaluate, hf, hts, hr, hp]
        | ok gr => simp [evaluate, hf, hts, hr, hp]
    | unknownSpec t => simp [evaluate, hf, hts]

/-- Claim C5, counterexample: an Eval-mode run whose process produced no
stdout at all (the canonical missing-payload case, e.g. a crash before
printing). The code substitutes `"{}"`, which parses, so no failure
payload with `ok=false` and a top-level error is synthesized: the
resulting document has neither an `ok` key nor an `error` key. The run
still grades as a failure, but the claimed synthesized error is absent. -/
theorem C5_counterexample :
    run_user_code_and_eval_post ⟨0, "", "boom"⟩ =
      some (.jobj [("stderr", .jstr "boom"), ("returncode", .jint 0)]) ∧
    jget (.jobj [("stderr", .jstr "boom"), ("returncode", .jint 0)]) "ok" = none ∧
    jhasKey (.jobj [("stderr", .jstr "boom"), ("returncode", .jint 0)]) "error" = false ∧
    evalPipeline ⟨0, "", "boom"⟩ =
      .ok { passed := false, feedback := "Some tests failed.",
            details := .payloadDetails
              (.jobj [("stderr", .jstr "boom"), ("returncode", .jint 0)]) } :=
  ⟨rfl, rfl, rfl, rfl⟩

/-- Claim C5, amended: when stdout is non-empty and unparseable the
Dispatcher synthesizes `{ok: false, error: stderr-or-"Invalid output"}`,
attaches the raw stderr and exit status, and the eval branch returns a
normal failing grade whose feedback is that error text; when stdout is
empty the substituted `"{}"` parses to an empty document carrying only
the attached stderr and exit status — still a normal failing grade,
with the generic fallback feedback — and in neither case does the parse
failure escape as an exception. -/
theorem C5_degraded_parse_failure :
    (∀ out : ExecutionResult, out.stdout ≠ "" → jsonLoads out.stdout = none →
      run_user_code_and_eval_post out = some (.jobj
        [("ok", .jbool false),
         ("error", .jstr (if out.stderr == "" then "Invalid output" else out.stderr)),
         ("stderr", .jstr out.stderr),
         ("returncode", .jint out.returncode)]) ∧
      evalPipeline out =
        .ok { passed := false,
              feedback := if out.stderr == "" then "Invalid output" else out.stderr,
              details := .payloadDetails (.jobj [("ok", .jbool false),
                ("error", .jstr (if out.stderr == "" then "Invalid output" else out.stderr)),
                ("stderr", .jstr out.stderr),
                ("returncode", .jint out.returncode)]) }) ∧
    (∀ (rc : Int) (se : String),
      run_user_code_and_eval_post ⟨rc, "", se⟩ =
        some (.jobj [("stderr", .jstr se), ("returncode", .jint rc)]) ∧
      evalPipeline ⟨rc, "", se⟩ =
        .ok { passed := false, feedback := "Some tests failed.",
              details := .payloadDetails
                (.jobj [("stderr", .jstr se), ("returncode", .jint rc)]) }) := by
  constructor
  · intro out hne hbad
    exact ⟨post_parse_failure out hne hbad, pipeline_parse_failure out hne hbad⟩
  · intro rc se
    exact ⟨post_empty_stdout rc se, pipeline_empty_stdout rc se⟩

/-- Claim C5 witness: the amended theorem applied to a concrete
unparseable stdout with a non-empty stderr: the run degrades to a
failing grade whose feedback is the raw stderr. -/
theorem C5_degraded_parse_failure_witness :
    evalPipeline ⟨2, "Traceback (most recent call last)", "NameError: x"⟩ =
      .ok { passed := false, feedback := "NameError: x",
            details := .payloadDetails (.jobj [("ok", .jbool false),
              ("error", .jstr "NameError: x"),
              ("stderr", .jstr "NameError: x"),
              ("returncode", .jint 2)]) } :=
  (C5_degraded_parse_failure.1 ⟨2, "Traceback (most recent call last)", "NameError: x"⟩
    (by decide) rfl).2

/-- Claim C6, counterexample: a failing Eval-mode grade (empty stdout,
non-empty stderr "boom") whose payload retains no per-check detail and
no top-level error; its feedback is the fixed string "Some tests
failed." — neither the (absent) top-level error text nor the raw
stderr — refuting the claimed fallback chain, though the feedback is
still non-empty. -/
theorem C6_counterexample :
    evalPipeline ⟨1, "", "boom"⟩ =
      .ok { passed := false, feedback := "Some tests failed.",
            details := .payloadDetails
              (.jobj [("stderr", .jstr "boom"), ("returncode", .jint 1)]) } ∧
    jget (.jobj [("stderr", .jstr "boom"), ("returncode", .jint 1)]) "results" = none ∧
    jhasKey (.jobj [("stderr", .jstr "boom"), ("returncode", .jint 1)]) "error" = false ∧
    ("Some tests failed." : String) ≠ "boom" :=
  ⟨rfl, rfl, rfl, by decide⟩

/-- Claim C6, amended: every failing grade carries non-empty feedback,
in all three modes; with no per-check detail the eval branch falls back
to the top-level error text when one is present — in particular, on a
parse failure of non-empty stdout the feedback is the raw stderr (or
"Invalid output" when stderr is empty) — and when neither detail nor a
top-level error exists the feedback is the fixed string "Some tests
failed.". -/
theorem C6_failing_feedback_nonempty :
    (∀ (expected : String) (out : ExecutionResult),
      (gradeStdout expected out).passed = false →
        (gradeStdout expected out).feedback ≠ "") ∧
    (∀ (expected : String) (out : ExecutionResult),
      (gradeStdoutPreset expected out).passed = false →
        (gradeStdoutPreset expected out).feedback ≠ "") ∧
    (∀ (res : JVal) (gr : EvaluateResult),
      evalGrade res = .ok gr → gr.passed = false → gr.feedback ≠ "") ∧
    (∀ out : ExecutionResult, out.stdout ≠ "" → jsonLoads out.stdout = none →
      (evalPipeline out).map (fun r => r.feedback) =
        .ok (if out.stderr == "" then "Invalid output" else out.stderr)) ∧
    (∀ (rc : Int) (se : String),
      (evalPipeline ⟨rc, "", se⟩).map (fun r => r.feedback) = .ok "Some tests failed.") := by
  refine ⟨gradeStdout_feedback_ne, gradeStdoutPreset_feedback_ne,
    evalGrade_failing_feedback_ne, ?_, ?_⟩
  · intro out hne hbad
    rw [pipeline_parse_failure out hne hbad]
    rfl
  · intro rc se
    rw [pipeline_empty_stdout rc se]
    rfl

/-- Claim C6 witness: the non-empty-feedback conjunct applied to a
concrete failing stdout-mode grade. -/
theorem C6_failing_feedback_nonempty_witness :
    (gradeStdout "12\n" ⟨0, "13\n", ""⟩).feedback ≠ "" :=
  C6_failing_feedback_nonempty.1 "12\n" ⟨0, "13\n", ""⟩ rfl

/-- Claim C9, counterexample: with an empty checks list the harness
does compute `ok=true` vacuously, but a candidate that loads fine and
prints a stray line still makes `evaluate` return passed=false (the
stray output corrupts the payload parse), so the claim's unconditional
"evaluate returns passed=true" fails. -/
theorem C9_counterexample :
    runHarness ⟨.ok (), fun _ => .ok .jnull, "x\n"⟩ [] = .resultsPayload true [] ∧
    (evalPipeline ⟨0, harnessStdout ⟨.ok (), fun _ => .ok .jnull, "x\n"⟩ [], ""⟩).map
      (fun r => r.passed) = .ok false :=
  ⟨rfl, rfl⟩

/-- Claim C9, amended: an Eval exercise with an empty checks list
passes vacuously. The harness computes `ok=true` with empty results
whatever the evaluation oracle and stray output; for a candidate that
loads cleanly and writes nothing to stdout the pipeline returns
passed=true with the success feedback regardless of exit status; and
the dispatcher returns that grade for any catalog entry with an empty
`checks` list. -/
theorem C9_empty_checks_vacuous_pass :
    (∀ (ev : String → Except String JVal) (st : String),
      runHarness ⟨.ok (), ev, st⟩ [] = .resultsPayload true []) ∧
    (∀ (ev : String → Except String JVal) (rc : Int) (se : String),
      evalPipeline ⟨rc, harnessStdout ⟨.ok (), ev, ""⟩ [], se⟩ =
        .ok { passed := true, feedback := "All tests passed!",
              details := .payloadDetails (.jobj [("ok", .jbool true), ("results", .jarr []),
                ("stderr", .jstr se), ("returncode", .jint rc)]) }) ∧
    (∀ (R : Runners) (chapters : List Chapter) (cid eid code : String) (ex : Exercise)
       (ev : String → Except String JVal) (rc : Int) (se : String),
      find_exercise chapters cid eid = some ex → ex.tests = .evalSpec [] →
      R.runEvalHarness code [] = .ok ⟨rc, harnessStdout ⟨.ok (), ev, ""⟩ [], se⟩ →
      evaluate R chapters cid eid code = (chapters, .gradeOutcome
        { passed := true, feedback := "All tests passed!",
          details := .payloadDetails (.jobj [("ok", .jbool true), ("results", .jarr []),
            ("stderr", .jstr se), ("returncode", .jint rc)]) })) := by
  refine ⟨fun ev st => rfl, fun ev rc se => rfl, ?_⟩
  intro R chapters cid eid code ex ev rc se hfind hts hrun
  exact evaluate_eval_route R chapters cid eid code ex [] _ _ hfind hts hrun rfl

/-- Claim C9 witness: a one-exercise catalog whose Eval exercise has an
empty checks list; with a cleanly loading candidate the dispatcher
returns passed=true and the success feedback, despite exit status 7. -/
theorem C9_empty_checks_vacuous_pass_witness :
    evaluate
      ⟨fun _ _ => .ok ⟨0, "", ""⟩,
       fun _ _ => .ok ⟨7, harnessStdout ⟨.ok (), fun _ => .ok .jnull, ""⟩ [], "w"⟩⟩
      [{ id := "c", title := "t", description := "d",
         exercises := [{ id := "e", title := "t", prompt := "p", starter_code := "s",
                         tests := .evalSpec [] }] }]
      "c" "e" "x = 1" =
      ([{ id := "c", title := "t", description := "d",
          exercises := [{ id := "e", title := "t", prompt := "p", starter_code := "s",
                          tests := .evalSpec [] }] }],
       .gradeOutcome
         { passed := true, feedback := "All tests passed!",
           details := .payloadDetails (.jobj [("ok", .jbool true), ("results", .jarr []),
             ("stderr", .jstr "w"), ("returncode", .jint 7)]) }) :=
  C9_empty_checks_vacuous_pass.2.2
    ⟨fun _ _ => .ok ⟨0, "", ""⟩,
     fun _ _ => .ok ⟨7, harnessStdout ⟨.ok (), fun _ => .ok .jnull, ""⟩ [], "w"⟩⟩
    [{ id := "c", title := "t", description := "d",
       exercises := [{ id := "e", title := "t", prompt := "p", starter_code := "s",
                       tests := .evalSpec [] }] }]
    "c" "e" "x = 1"
    { id := "e", title := "t", prompt := "p", starter_code := "s", tests := .evalSpec [] }
    (fun _ => .ok .jnull) 7 "w" rfl rfl rfl

/-- Claim C10: in Eval mode the verdict ignores the harness process's
exit status — the graded passed/feedback are unchanged under any change
of exit status, and equal the truthiness of the parsed payload's `ok`
field — so a payload with `ok=true` passes even under a non-zero exit
status, while the stdout modes fail on a non-zero exit status even with
matching output. -/
theorem C10_eval_ignores_exit_status :
    (∀ (so se : String) (rc rc' : Int),
      (evalPipeline ⟨rc, so, se⟩).map (fun r => r.passed) =
        (evalPipeline ⟨rc', so, se⟩).map (fun r => r.passed)) ∧
    (∀ (res : JVal) (gr : EvaluateResult), evalGrade res = .ok gr →
      gr.passed = pyTruthy (jget res "ok")) ∧
    ((evalPipeline ⟨1, harnessStdout ⟨.ok (), fun _ => .ok .jnull, ""⟩ [], ""⟩).map
      (fun r => r.passed) = .ok true) ∧
    (gradeStdout "ok\n" ⟨1, "ok\n", ""⟩).passed = false := by
  refine ⟨?_, evalGrade_passed, rfl, rfl⟩
  intro so se rc rc'
  exact (evalPipeline_rc_indep so se rc rc').1

/-- Claim C10 witness: the ok-field characterization applied to the
concrete augmented payload of an empty-stdout run. -/
theorem C10_eval_ignores_exit_status_witness :
    ({ passed := false, feedback := "Some tests failed.",
       details := .payloadDetails
         (.jobj [("stderr", .jstr "x"), ("returncode", .jint 1)]) } :
        EvaluateResult).passed =
      pyTruthy (jget (.jobj [("stderr", .jstr "x"), ("returncode", .jint 1)]) "ok") :=
  C10_eval_ignores_exit_status.2.1
    (.jobj [("stderr", .jstr "x"), ("returncode", .jint 1)])
    { passed := false, feedback := "Some tests failed.",
      details := .payloadDetails
        (.jobj [("stderr", .jstr "x"), ("returncode", .jint 1)]) }
    rfl

end PracticeApi
